import Mathlib

/-!
Verification development for the JavardrySpoiler decode pipeline.

Strings from the Rust source are modelled as `List Char` (`Str`), machine
integers as `Nat`/`Int` with explicit range checks matching the Rust
`parse::<uN>`/`parse::<iN>` behaviour, and fallible operations as
`Except Err`.  Every definition mirrors one function of the source tree
(`kvs.rs`, `util.rs`, `stat.rs`, `race.rs`, `class.rs`, `spell.rs`,
`item.rs`, `monster.rs`, `scenario.rs`, `cipher.rs`).
-/

set_option maxRecDepth 4000

namespace JavardrySpoiler

/-- Strings are modelled as lists of characters. -/
abbrev Str := List Char

/-- Rust `char::is_ascii_whitespace`: space, tab, newline, form feed, carriage return. -/
def isAsciiWs (c : Char) : Bool :=
  c = ' ' || c = '\t' || c = '\n' || c = '\x0c' || c = '\r'

/-- `util::trim_start_ascii`. -/
def trimStartAscii (s : Str) : Str := s.dropWhile isAsciiWs

/-- Helper: trim ASCII whitespace from the end. -/
def trimEndAscii (s : Str) : Str := (s.reverse.dropWhile isAsciiWs).reverse

/-- `util::trim_ascii` (trims both ends). -/
def trimAscii (s : Str) : Str := trimEndAscii (trimStartAscii s)

/-- Error taxonomy of the pipeline (anyhow messages in the source are
collapsed into constructors; `context` models the `entity kind + id`
wrapping done by the `*_from_kvs` loops). -/
inductive Err where
  | missingKey (key : Str)
  | invalidLine (line : Str)
  | fieldErr (msg : String)
  | context (entity : String) (id : Nat) (e : Err)
  | badLength
  | badPadding
  | notUtf8
  deriving DecidableEq, Repr

/-- Decimal digit value of a character (assumes `'0' ≤ c ≤ '9'` for meaning). -/
def digitVal (c : Char) : Nat := c.toNat - 48

/-- Is `c` an ASCII decimal digit. -/
def isDigitC (c : Char) : Bool := 48 ≤ c.toNat && c.toNat ≤ 57

/-- Value of a digit string, most significant digit first. -/
def valNat (s : Str) : Nat := s.foldl (fun a c => a * 10 + digitVal c) 0

/-- Parse a non-empty all-digit string into a `Nat` (no sign handling). -/
def parseNatCore (s : Str) : Option Nat :=
  if s ≠ [] ∧ s.all isDigitC then some (valNat s) else none

/-- Strip one leading `'+'` (Rust unsigned `parse` accepts it). -/
def stripPlus (s : Str) : Str :=
  match s with
  | c :: r => if c = '+' then r else s
  | [] => s

/-- Rust `str::parse::<u32>`. -/
def parseU32 (s : Str) : Option Nat :=
  (parseNatCore (stripPlus s)).bind fun n => if n < 2 ^ 32 then some n else none

/-- Rust `str::parse::<u8>`. -/
def parseU8 (s : Str) : Option Nat :=
  (parseNatCore (stripPlus s)).bind fun n => if n < 2 ^ 8 then some n else none

/-- Rust `str::parse::<u64>`. -/
def parseU64 (s : Str) : Option Nat :=
  (parseNatCore (stripPlus s)).bind fun n => if n < 2 ^ 64 then some n else none

/-- Rust `str::parse::<i32>`. -/
def parseI32 (s : Str) : Option Int :=
  match s with
  | '-' :: r => (parseNatCore r).bind fun n => if n ≤ 2 ^ 31 then some (-(n : Int)) else none
  | '+' :: r => (parseNatCore r).bind fun n => if n < 2 ^ 31 then some ((n : Int)) else none
  | _ => (parseNatCore s).bind fun n => if n < 2 ^ 31 then some ((n : Int)) else none

/-- Rust `str::parse::<bool>`: exactly the literals `true` / `false`. -/
def parseBoolR (s : Str) : Option Bool :=
  if s = "true".data then some true
  else if s = "false".data then some false
  else none

/-- Lift an `Option` into `Except`, with `e` as the error. -/
def req {α : Type} (o : Option α) (e : Err) : Except Err α :=
  match o with
  | some a => .ok a
  | none => .error e

def reqU32 (s : Str) : Except Err Nat := req (parseU32 s) (.fieldErr "invalid u32")

def reqU8 (s : Str) : Except Err Nat := req (parseU8 s) (.fieldErr "invalid u8")

def reqU64 (s : Str) : Except Err Nat := req (parseU64 s) (.fieldErr "invalid u64")

def reqI32 (s : Str) : Except Err Int := req (parseI32 s) (.fieldErr "invalid i32")

def reqBool (s : Str) : Except Err Bool := req (parseBoolR s) (.fieldErr "invalid bool")

/-- Worker for `splitOn`: `acc` holds the current field reversed. -/
def splitOnGo (sep : Str) : Nat → Str → Str → List Str
  | 0, acc, rest => [acc.reverse ++ rest]
  | fuel + 1, acc, rest =>
    if sep ≠ [] ∧ sep.isPrefixOf rest then
      acc.reverse :: splitOnGo sep fuel [] (rest.drop sep.length)
    else
      match rest with
      | [] => [acc.reverse]
      | c :: cs => splitOnGo sep fuel (c :: acc) cs

/-- Rust `str::split` on a non-empty separator string: leftmost-first,
non-overlapping; the empty input yields `[""]`. -/
def splitOn (sep s : Str) : List Str := splitOnGo sep (s.length + 1) [] s

/-- Decimal digit character for `d < 10`. -/
def digitChar (d : Nat) : Char := Char.ofNat (48 + d)

/-- Fuelled decimal rendering (most significant digit first). -/
def natToDigitsF : Nat → Nat → Str
  | 0, _ => []
  | fuel + 1, n =>
    if n < 10 then [digitChar n]
    else natToDigitsF fuel (n / 10) ++ [digitChar (n % 10)]

/-- Decimal rendering of a `Nat`, as produced by Rust `write!("{}", i)`. -/
def natToDigits (n : Nat) : Str := natToDigitsF (n + 1) n

/-- Rust `char::to_digit(16)`. -/
def hexDigitVal (c : Char) : Option Nat :=
  if 48 ≤ c.toNat ∧ c.toNat ≤ 57 then some (c.toNat - 48)
  else if 97 ≤ c.toNat ∧ c.toNat ≤ 102 then some (c.toNat - 87)
  else if 65 ≤ c.toNat ∧ c.toNat ≤ 70 then some (c.toNat - 55)
  else none

/-- Rust `char::to_digit(10)`. -/
def decDigitVal (c : Char) : Option Nat :=
  if 48 ≤ c.toNat ∧ c.toNat ≤ 57 then some (c.toNat - 48) else none

/-- The `bits |= 1 << digit` accumulation loop shared by the flag-set
parsers: fails on the first character that is not a digit of the base. -/
def accumBits (digitOf : Char → Option Nat) (s : Str) : Option Nat :=
  s.foldl (fun acc c => acc.bind fun bits => (digitOf c).map fun d => bits ||| (1 <<< d)) (some 0)

namespace ResistMask

def SILENCE : Nat := 1 <<< 0
def SLEEP : Nat := 1 <<< 1
def POISON : Nat := 1 <<< 2
def PARALYSIS : Nat := 1 <<< 3
def PETRIFICATION : Nat := 1 <<< 4
def DRAIN : Nat := 1 <<< 5
def KNOCKOUT : Nat := 1 <<< 6
def CRITICAL : Nat := 1 <<< 7
def DEATH : Nat := 1 <<< 8
def FIRE : Nat := 1 <<< 10
def COLD : Nat := 1 <<< 11
def ELECTRIC : Nat := 1 <<< 12
def HOLY : Nat := 1 <<< 13
def GENERIC : Nat := 1 <<< 14

/-- Union of all defined `ResistMask` bits (bit 9 is undefined). -/
def ALL : Nat :=
  SILENCE ||| SLEEP ||| POISON ||| PARALYSIS ||| PETRIFICATION ||| DRAIN |||
  KNOCKOUT ||| CRITICAL ||| DEATH ||| FIRE ||| COLD ||| ELECTRIC ||| HOLY ||| GENERIC

/-- `bitflags` `ResistMask::from_bits`: `none` when an undefined bit is set. -/
def fromBits (bits : Nat) : Option Nat :=
  if bits ||| ALL = ALL then some bits else none

end ResistMask

namespace DebuffMask

def SLEEP : Nat := 1 <<< 0
def PARALYSIS : Nat := 1 <<< 1
def PETRIFICATION : Nat := 1 <<< 2
def KNOCKOUT : Nat := 1 <<< 3
def CRITICAL : Nat := 1 <<< 4

/-- Union of all defined `DebuffMask` bits. -/
def ALL : Nat := SLEEP ||| PARALYSIS ||| PETRIFICATION ||| KNOCKOUT ||| CRITICAL

/-- `bitflags` `DebuffMask::from_bits`. -/
def fromBits (bits : Nat) : Option Nat :=
  if bits ||| ALL = ALL then some bits else none

end DebuffMask

namespace MonsterKindMask

/-- Union of all defined `MonsterKindMask` bits (bits 0–14, one per `MonsterKind`). -/
def ALL : Nat := 2 ^ 15 - 1

/-- `bitflags` `MonsterKindMask::from_bits`. -/
def fromBits (bits : Nat) : Option Nat :=
  if bits ||| ALL = ALL then some bits else none

end MonsterKindMask

namespace Util

/-- `util::parse_resist_mask`: hex-digit scan then `ResistMask::from_bits` validation. -/
def parse_resist_mask (s : Str) : Except Err Nat :=
  match accumBits hexDigitVal s with
  | none => .error (.fieldErr "invalid element char")
  | some bits =>
    match ResistMask.fromBits bits with
    | none => .error (.fieldErr "unknown resist mask bit")
    | some mask => .ok mask

/-- `util::parse_monster_kind_mask`: hex-digit scan then `MonsterKindMask::from_bits`. -/
def parse_monster_kind_mask (s : Str) : Except Err Nat :=
  match accumBits hexDigitVal s with
  | none => .error (.fieldErr "invalid monster kind char")
  | some bits =>
    match MonsterKindMask.fromBits bits with
    | none => .error (.fieldErr "unknown monster kind mask bit")
    | some mask => .ok mask

end Util

/-! ## Key/value store (`kvs.rs`) -/

/-- The flat key/value store.  `HashMap<String, String>` is modelled as an
association list where `insertKvs` prepends and `findKvs` returns the most
recently inserted binding. -/
abbrev Kvs := List (Str × Str)

/-- Lookup, newest binding first (models `HashMap::get`). -/
def findKvs : Kvs → Str → Option Str
  | [], _ => none
  | (k, v) :: m, key => if k = key then some v else findKvs m key

/-- Insert, replacing any earlier binding (models `HashMap::insert`). -/
def insertKvs (m : Kvs) (k v : Str) : Kvs := (k, v) :: m

/-- A character of the key regex class `[0-9a-zA-Z_]`. -/
def isIdentChar (c : Char) : Bool :=
  (48 ≤ c.toNat && c.toNat ≤ 57) || (97 ≤ c.toNat && c.toNat ≤ 122) ||
  (65 ≤ c.toNat && c.toNat ≤ 90) || c = '_'

/-- Strip one trailing carriage return (for `str::lines` pieces). -/
def stripCR (l : Str) : Str :=
  if l.getLast? = some '\r' then l.dropLast else l

/-- Parse one line of `KEY = "VALUE"` text.  Returns `none` for a line that
is empty after trimming (skipped), the pair for a well-formed line, and an
error otherwise — mirroring the body of the loop in `kvs::parse`. -/
def parseLine (line : Str) : Except Err (Option (Str × Str)) :=
  let l := trimAscii line
  if l = [] then .ok none
  else
    let key := l.takeWhile isIdentChar
    if key = [] then .error (.invalidLine line)
    else
      let r1 := trimStartAscii (l.dropWhile isIdentChar)
      match r1 with
      | '=' :: r2 =>
        let r3 := trimStartAscii r2
        match r3 with
        | '"' :: r4 =>
          if r4.getLast? = some '"' then .ok (some (key, r4.dropLast))
          else .error (.invalidLine line)
        | _ => .error (.invalidLine line)
      | _ => .error (.invalidLine line)

/-- Rust `str::lines`: split at `'\n'`, each piece before a `'\n'` loses one
trailing `'\r'`; a final piece with no newline keeps a lone `'\r'`; a final
line ending is optional. -/
def linesOf (s : Str) : List Str :=
  if s = [] then []
  else
    let ps := splitOn ['\n'] s
    let init := ps.dropLast.map stripCR
    match ps.getLast? with
    | some [] => init
    | some l => init ++ [l]
    | none => init

/-- Loop of `kvs::parse`: accumulates the map and the duplicate-key
warnings `(key, overwritten value)`. -/
def kvsGo : List Str → Kvs → List (Str × Str) → Except Err (Kvs × List (Str × Str))
  | [], m, ws => .ok (m, ws.reverse)
  | l :: ls, m, ws =>
    match parseLine l with
    | .error e => .error e
    | .ok none => kvsGo ls m ws
    | .ok (some (k, v)) =>
      match findKvs m k with
      | some old => kvsGo ls (insertKvs m k v) ((k, old) :: ws)
      | none => kvsGo ls (insertKvs m k v) ws

/-- `kvs::parse`. -/
def kvsParse (plaintext : Str) : Except Err (Kvs × List (Str × Str)) :=
  kvsGo (linesOf plaintext) [] []

/-- `KvsExt::get_expect`. -/
def getExpect (kvs : Kvs) (key : Str) : Except Err Str :=
  match findKvs kvs key with
  | some v => .ok v
  | none => .error (.missingKey key)

/-- Worker for `iter_seq`, with fuel (the Rust iterator is lazy; consumers
stop at the first absent index, and an absent index always exists within
`kvs.length + 1` probes). -/
def iterSeqGo (kvs : Kvs) (pre : Str) : Nat → Nat → List Str
  | 0, _ => []
  | fuel + 1, i =>
    match findKvs kvs (pre ++ natToDigits i) with
    | none => []
    | some v => v :: iterSeqGo kvs pre fuel (i + 1)

/-- `KvsExt::iter_seq`: the values of `pre ++ "0"`, `pre ++ "1"`, … up to
(excluding) the first absent index. -/
def iterSeq (kvs : Kvs) (pre : Str) : List Str :=
  iterSeqGo kvs pre (kvs.length + 1) 0

/-! ## Entity decoders -/

/-- Effectful map over a list, stopping at the first error
(Rust `collect::<Result<_, _>>()`). -/
def mapE {α β : Type} (f : α → Except Err β) : List α → Except Err (List β)
  | [] => .ok []
  | a :: as =>
    match f a with
    | .error e => .error e
    | .ok b => (mapE f as).map (b :: ·)

/-- The shared `*_from_kvs` loop shape: decode each raw text at its position,
wrapping any per-entity error with the entity label and positional id. -/
def decodeSeq {α : Type} (label : String) (f : Nat → Str → Except Err α) :
    Nat → List Str → Except Err (List α)
  | _, [] => .ok []
  | i, t :: ts =>
    match f i t with
    | .error e => .error (.context label i e)
    | .ok a => (decodeSeq label f (i + 1) ts).map (a :: ·)

/-- Field access after an arity check (in-bounds by construction). -/
def fieldAt (fields : List Str) (i : Nat) : Str := fields.getD i []

/-- Comma-separated `u32` list (stat arrays, spell-level arrays). -/
def parseU32List (s : Str) : Except Err (List Nat) :=
  mapE reqU32 (splitOn [','] s)

/-- Comma-separated `i32` list (item per-stat bonuses). -/
def parseI32List (s : Str) : Except Err (List Int) :=
  mapE reqI32 (splitOn [','] s)

/-- `Stat` (`stat.rs`). -/
structure Stat where
  id : Nat
  name : Str
  name_abbr : Str
  sex_bonus : Int × Int
  fixed_on_create : Bool
  hide : Bool
  deriving DecidableEq, Repr

/-- `stat.rs` `parse`. -/
def Stat.parse (id : Nat) (text : Str) : Except Err Stat :=
  let fields := splitOn "<>".data text
  if fields.length = 8 then do
    let b0 ← reqI32 (fieldAt fields 2)
    let b1 ← reqI32 (fieldAt fields 3)
    let fixed ← reqBool (fieldAt fields 4)
    let hide ← reqBool (fieldAt fields 7)
    .ok { id := id, name := fieldAt fields 0, name_abbr := fieldAt fields 1,
          sex_bonus := (b0, b1), fixed_on_create := fixed, hide := hide }
  else .error (.fieldErr "stat text must have 8 fields")

/-- `stat.rs` `stats_from_kvs`. -/
def stats_from_kvs (kvs : Kvs) : Except Err (List Stat) :=
  decodeSeq "stat" Stat.parse 0 (iterSeq kvs "Abi".data)

/-- `Race` (`race.rs`). -/
structure Race where
  id : Nat
  name : Str
  name_abbr : Str
  stats : List Nat
  lifetime : Nat
  ac : Int
  healing : Int
  spell_cancel : Int
  resist_mask : Nat
  cond_to_appear : Str
  description : Str
  inven_bonus : Int
  deriving DecidableEq, Repr

/-- `race.rs` `parse`. -/
def Race.parse (id : Nat) (text : Str) : Except Err Race :=
  let fields := splitOn "<>".data text
  if fields.length = 14 then do
    let stats ← parseU32List (fieldAt fields 2)
    let lifetime ← reqU32 (fieldAt fields 3)
    let ac ← reqI32 (fieldAt fields 4)
    let healing ← reqI32 (fieldAt fields 5)
    let spell_cancel ← reqI32 (fieldAt fields 6)
    let resist_mask ← Util.parse_resist_mask (fieldAt fields 9)
    let inven_bonus ← reqI32 (fieldAt fields 13)
    .ok { id := id, name := fieldAt fields 0, name_abbr := fieldAt fields 1,
          stats := stats, lifetime := lifetime, ac := ac, healing := healing,
          spell_cancel := spell_cancel, resist_mask := resist_mask,
          cond_to_appear := fieldAt fields 10, description := fieldAt fields 11,
          inven_bonus := inven_bonus }
  else .error (.fieldErr "race text must have 14 fields")

/-- `race.rs` `races_from_kvs`. -/
def races_from_kvs (kvs : Kvs) : Except Err (List Race) :=
  decodeSeq "race" Race.parse 0 (iterSeq kvs "Race".data)

/-- Digit-scanned mask with a per-digit upper bound (`class.rs` sex and
alignment masks, `item.rs` curse masks). -/
def parseDigitMaskLt (limit : Nat) (badChar badRange : String) (s : Str) : Except Err Nat :=
  s.foldl
    (fun acc c =>
      acc.bind fun m =>
        match decDigitVal c with
        | none => .error (.fieldErr badChar)
        | some d => if d < limit then .ok (m ||| (1 <<< d)) else .error (.fieldErr badRange))
    (.ok 0)

/-- `Class` (`class.rs`). -/
structure Class where
  id : Nat
  name : Str
  name_abbr : Str
  sex_mask : Nat
  alignment_mask : Nat
  stats : List Nat
  ac_expr : Str
  hit_expr : Str
  attack_count_expr : Str
  barehand_damage_expr : Str × Str × Str
  attack_debuff_mask : Nat
  thief_skill : Int
  can_identify : Bool
  xl_for_dispell : Option Nat
  dispell_mask : Nat
  hp_expr : Str
  xp_expr : Str
  description : Str
  inven_bonus : Int
  cond_to_appear : Str
  deriving DecidableEq, Repr

/-- `class.rs` `parse_barehand_damage_expr` (also `item.rs` `parse_damage_expr`). -/
def parseDamageExpr (s : Str) : Except Err (Str × Str × Str) :=
  let fields := splitOn [','] s
  if fields.length = 3 then
    .ok (fieldAt fields 0, fieldAt fields 1, fieldAt fields 2)
  else .error (.fieldErr "damage expr string must have 3 fields")

/-- `class.rs` `parse_attack_debuff_mask` (enum-coded: 0–2). -/
def Class.parse_attack_debuff_mask (s : Str) : Except Err Nat := do
  let value ← reqU8 s
  match value with
  | 0 => .ok 0
  | 1 => .ok DebuffMask.KNOCKOUT
  | 2 => .ok DebuffMask.CRITICAL
  | _ => .error (.fieldErr "invalid class attack debuff value")

/-- `class.rs` `parse`. -/
def Class.parse (id : Nat) (text : Str) : Except Err Class :=
  let fields := splitOn "<>".data text
  if fields.length = 21 then do
    let sex_mask ← parseDigitMaskLt 2 "invalid sex char" "invalid sex" (fieldAt fields 2)
    let alignment_mask ← parseDigitMaskLt 3 "invalid alignment char" "invalid alignment" (fieldAt fields 3)
    let stats ← parseU32List (fieldAt fields 4)
    let barehand ← parseDamageExpr (fieldAt fields 8)
    let attack_debuff_mask ← Class.parse_attack_debuff_mask (fieldAt fields 9)
    let thief_skill ← reqI32 (fieldAt fields 10)
    let can_identify ← reqBool (fieldAt fields 11)
    let xl ← reqU32 (fieldAt fields 12)
    let dispell_mask ← Util.parse_monster_kind_mask (fieldAt fields 13)
    let inven_bonus ← reqI32 (fieldAt fields 18)
    .ok { id := id, name := fieldAt fields 0, name_abbr := fieldAt fields 1,
          sex_mask := sex_mask, alignment_mask := alignment_mask, stats := stats,
          ac_expr := fieldAt fields 5, hit_expr := fieldAt fields 6,
          attack_count_expr := fieldAt fields 7, barehand_damage_expr := barehand,
          attack_debuff_mask := attack_debuff_mask, thief_skill := thief_skill,
          can_identify := can_identify,
          xl_for_dispell := if xl ≠ 0 then some xl else none,
          dispell_mask := dispell_mask, hp_expr := fieldAt fields 15,
          xp_expr := fieldAt fields 16, description := fieldAt fields 17,
          inven_bonus := inven_bonus, cond_to_appear := fieldAt fields 20 }
  else .error (.fieldErr "class text must have 21 fields")

/-- `class.rs` `classes_from_kvs`. -/
def classes_from_kvs (kvs : Kvs) : Except Err (List Class) :=
  decodeSeq "class" Class.parse 0 (iterSeq kvs "Class".data)

/-- `Spell` (`spell.rs`). -/
structure Spell where
  name : Str
  description : Str
  cost_mp : Nat
  ignore_silence : Bool
  extra_learn : Bool
  deriving DecidableEq, Repr

/-- `SpellRealm` (`spell.rs`). -/
structure SpellRealm where
  id : Nat
  name : Str
  level_count : Nat
  spells_of_levels : List (List Spell)
  is_only_for_monster : Bool
  deriving DecidableEq, Repr

/-- `spell.rs` `parse_spell` (8 `<>`-delimited fields). -/
def Spell.parse (s : Str) : Except Err Spell :=
  let fields := splitOn "<>".data s
  if fields.length = 8 then do
    let cost_mp ← reqU32 (fieldAt fields 6)
    let ignore_silence ← reqBool (fieldAt fields 7)
    let extra_learn ← reqBool (fieldAt fields 5)
    .ok { name := fieldAt fields 0, description := fieldAt fields 2,
          cost_mp := cost_mp, ignore_silence := ignore_silence, extra_learn := extra_learn }
  else .error (.fieldErr "spell text must have 8 fields")

/-- `spell.rs` `parse_spells_of_level`. -/
def parseSpellsOfLevel (s : Str) : Except Err (List Spell) :=
  let t := trimAscii s
  if t = [] then .ok []
  else mapE Spell.parse (splitOn "<++>".data t)

/-- `spell.rs` `parse` (one spell realm). -/
def SpellRealm.parse (level_count : Nat) (is_only_for_monster : Bool) (id : Nat)
    (text : Str) : Except Err SpellRealm :=
  let fields := splitOn "<-->".data text
  if fields.length = level_count + 1 then do
    let spells ← mapE parseSpellsOfLevel (fields.drop 1)
    .ok { id := id, name := fieldAt fields 0, level_count := level_count,
          spells_of_levels := spells, is_only_for_monster := is_only_for_monster }
  else .error (.fieldErr "level count mismatch")

/-- Loop of `spell_realms_from_kvs`: the peekable iterator flags exactly the
last realm when the global toggle is set. -/
def spellRealmsGo (level_count : Nat) (exclusive : Bool) :
    Nat → List Str → Except Err (List SpellRealm)
  | _, [] => .ok []
  | i, t :: ts =>
    match SpellRealm.parse level_count (exclusive && ts.isEmpty) i t with
    | .error e => .error (.context "spell realm" i e)
    | .ok r => (spellRealmsGo level_count exclusive (i + 1) ts).map (r :: ·)

/-- `spell.rs` `spell_realms_from_kvs`. -/
def spell_realms_from_kvs (kvs : Kvs) : Except Err (List SpellRealm) := do
  let lvS ← getExpect kvs "SpellLvNum".data
  let level_count ← reqU32 lvS
  let exS ← getExpect kvs "ExclusiveUseOfMonsters".data
  let exclusive ← reqBool exS
  spellRealmsGo level_count exclusive 0 (iterSeq kvs "SpellKind".data)

/-- `ItemKind` (`item.rs`): small-integer enum code 0–6. -/
inductive ItemKind where
  | Weapon | Armor | Shield | Helmet | Gloves | Boots | Tool
  deriving DecidableEq, Repr

/-- `num_enum` `TryFromPrimitive` for `ItemKind`. -/
def ItemKind.fromCode : Nat → Option ItemKind
  | 0 => some .Weapon
  | 1 => some .Armor
  | 2 => some .Shield
  | 3 => some .Helmet
  | 4 => some .Gloves
  | 5 => some .Boots
  | 6 => some .Tool
  | _ => none

/-- `Item` (`item.rs`). -/
structure Item where
  id : Nat
  name_ident : Str
  name_unident : Str
  kind : ItemKind
  price : Nat
  stock : Int
  equip_class_mask : Nat
  equip_race_mask : Nat
  curse_alignment_mask : Nat
  curse_sex_mask : Nat
  ac : Int
  ac_curse : Int
  damage_expr : Str × Str × Str
  hit_modifier : Int
  attack_count_modifier : Int
  attack_debuff_mask : Nat
  healing : Int
  resist_mask : Nat
  spell_cancel : Int
  slay_mask : Nat
  protect_mask : Nat
  use_str : Str
  sp_str : Str
  break_prob_expr : Str
  broken_item_id : Option Nat
  description : Str
  ident_difficulty : Nat
  attack_target_count : Nat
  usable_only_if_equipable : Bool
  effect_only_if_equiped : Bool
  disable_class_attack_debuff_if_equiped : Bool
  disable_class_ac_if_equiped : Bool
  stats_bonus : List Int
  halve_attack_count_if_subweapon : Bool
  poison_damage : Nat
  effect_only_if_equipable : Bool
  hide_in_catalog : Bool
  deriving DecidableEq, Repr

/-- The regex `\Aclass\[([0-9]+)\]\z` / `\Arace\[([0-9]+)\]\z`: on a match,
returns the captured digit group. -/
def matchBracketTok (lit : Str) (s : Str) : Option Str :=
  if lit.isPrefixOf s then
    let r := s.drop lit.length
    match r.getLast? with
    | some ']' =>
      let d := r.dropLast
      if d ≠ [] ∧ d.all isDigitC then some d else none
    | _ => none
  else none

/-- `item.rs` `parse_equip_class_mask`. -/
def parse_equip_class_mask (s : Str) : Except Err Nat :=
  if s = "-".data then .ok 0
  else
    (splitOn "<+>".data s).foldl
      (fun acc field =>
        acc.bind fun mask =>
          match matchBracketTok "class[".data field with
          | none => .error (.fieldErr "invalid class string")
          | some d => do
            let cls ← reqU32 d
            if cls < 36 then .ok (mask ||| (1 <<< cls))
            else .error (.fieldErr "invalid class"))
      (.ok 0)

/-- `item.rs` `parse_equip_race_mask`. -/
def parse_equip_race_mask (s : Str) : Except Err Nat :=
  if s = "-".data then .ok 0
  else
    (splitOn "<+>".data s).foldl
      (fun acc field =>
        acc.bind fun mask =>
          match matchBracketTok "race[".data field with
          | none => .error (.fieldErr "invalid race string")
          | some d => do
            let rc ← reqU32 d
            if rc < 36 then .ok (mask ||| (1 <<< rc))
            else .error (.fieldErr "invalid race"))
      (.ok 0)

/-- `item.rs` `parse_equip_masks`. -/
def parse_equip_masks (s : Str) : Except Err (Nat × Nat) :=
  if s = [] then .ok (0, 0)
  else
    let fields := splitOn [','] s
    if fields.length = 2 then do
      let c ← parse_equip_class_mask (fieldAt fields 0)
      let r ← parse_equip_race_mask (fieldAt fields 1)
      .ok (c, r)
    else .error (.fieldErr "equip mask string must have 2 fields")

/-- `item.rs` `parse_curse_alignment_mask`. -/
def parse_curse_alignment_mask (s : Str) : Except Err Nat :=
  if s = "-".data then .ok 0
  else parseDigitMaskLt 3 "invalid alignment char" "invalid alignment" s

/-- `item.rs` `parse_curse_sex_mask`. -/
def parse_curse_sex_mask (s : Str) : Except Err Nat :=
  if s = "-".data then .ok 0
  else parseDigitMaskLt 2 "invalid sex char" "invalid sex" s

/-- `item.rs` `parse_curse_masks`. -/
def parse_curse_masks (s : Str) : Except Err (Nat × Nat) :=
  if s = [] then .ok (0, 0)
  else
    let fields := splitOn [','] s
    if fields.length = 2 then do
      let a ← parse_curse_alignment_mask (fieldAt fields 0)
      let x ← parse_curse_sex_mask (fieldAt fields 1)
      .ok (a, x)
    else .error (.fieldErr "curse mask string must have 2 fields")

/-- `item.rs` `parse_attack_debuff_mask` (enum-coded: 0–5). -/
def Item.parse_attack_debuff_mask (s : Str) : Except Err Nat := do
  let value ← reqU8 s
  match value with
  | 0 => .ok 0
  | 1 => .ok DebuffMask.KNOCKOUT
  | 2 => .ok DebuffMask.CRITICAL
  | 3 => .ok DebuffMask.SLEEP
  | 4 => .ok DebuffMask.PARALYSIS
  | 5 => .ok DebuffMask.PETRIFICATION
  | _ => .error (.fieldErr "invalid item attack debuff value")

/-- `item.rs` `parse_broken_item_id` (`-1` means none, else `item[N]`). -/
def parse_broken_item_id (s : Str) : Except Err (Option Nat) :=
  if s = "-1".data then .ok none
  else
    match matchBracketTok "item[".data s with
    | none => .error (.fieldErr "invalid item string")
    | some d => (reqU32 d).map some

/-- `item.rs` `parse`. -/
def Item.parse (id : Nat) (text : Str) : Except Err Item :=
  let fields := splitOn "<>".data text
  if fields.length = 39 then do
    let kindCode ← reqU8 (fieldAt fields 2)
    let kind ← req (ItemKind.fromCode kindCode) (.fieldErr "invalid item kind value")
    let price ← reqU64 (fieldAt fields 3)
    let stock ← reqI32 (fieldAt fields 4)
    let equip ← parse_equip_masks (fieldAt fields 5)
    let curse ← parse_curse_masks (fieldAt fields 6)
    let ac ← reqI32 (fieldAt fields 8)
    let ac_curse ← reqI32 (fieldAt fields 9)
    let damage ← parseDamageExpr (fieldAt fields 10)
    let hit_modifier ← reqI32 (fieldAt fields 12)
    let attack_count_modifier ← reqI32 (fieldAt fields 13)
    let attack_debuff_mask ← Item.parse_attack_debuff_mask (fieldAt fields 14)
    let healing ← reqI32 (fieldAt fields 18)
    let resist_mask ← Util.parse_resist_mask (fieldAt fields 22)
    let spell_cancel ← reqI32 (fieldAt fields 19)
    let slay_mask ← Util.parse_monster_kind_mask (fieldAt fields 16)
    let protect_mask ← Util.parse_monster_kind_mask (fieldAt fields 17)
    let broken_item_id ← parse_broken_item_id (fieldAt fields 21)
    let ident_difficulty ← reqU32 (fieldAt fields 7)
    let attack_target_count ← reqU32 (fieldAt fields 26)
    let usable_only_if_equipable ← reqBool (fieldAt fields 28)
    let effect_only_if_equiped ← reqBool (fieldAt fields 29)
    let disable_class_attack_debuff_if_equiped ← reqBool (fieldAt fields 30)
    let disable_class_ac_if_equiped ← reqBool (fieldAt fields 31)
    let stats_bonus ← parseI32List (fieldAt fields 32)
    let halve_attack_count_if_subweapon ← reqBool (fieldAt fields 33)
    let poison_damage ← reqU32 (fieldAt fields 34)
    let effect_only_if_equipable ← reqBool (fieldAt fields 35)
    let hide_in_catalog ← reqBool (fieldAt fields 36)
    .ok { id := id, name_ident := fieldAt fields 0, name_unident := fieldAt fields 1,
          kind := kind, price := price, stock := stock,
          equip_class_mask := equip.1, equip_race_mask := equip.2,
          curse_alignment_mask := curse.1, curse_sex_mask := curse.2,
          ac := ac, ac_curse := ac_curse, damage_expr := damage,
          hit_modifier := hit_modifier, attack_count_modifier := attack_count_modifier,
          attack_debuff_mask := attack_debuff_mask, healing := healing,
          resist_mask := resist_mask, spell_cancel := spell_cancel,
          slay_mask := slay_mask, protect_mask := protect_mask,
          use_str := fieldAt fields 24, sp_str := fieldAt fields 25,
          break_prob_expr := fieldAt fields 20, broken_item_id := broken_item_id,
          description := fieldAt fields 23, ident_difficulty := ident_difficulty,
          attack_target_count := attack_target_count,
          usable_only_if_equipable := usable_only_if_equipable,
          effect_only_if_equiped := effect_only_if_equiped,
          disable_class_attack_debuff_if_equiped := disable_class_attack_debuff_if_equiped,
          disable_class_ac_if_equiped := disable_class_ac_if_equiped,
          stats_bonus := stats_bonus,
          halve_attack_count_if_subweapon := halve_attack_count_if_subweapon,
          poison_damage := poison_damage,
          effect_only_if_equipable := effect_only_if_equipable,
          hide_in_catalog := hide_in_catalog }
  else .error (.fieldErr "item text must have 39 fields")

/-- `item.rs` `items_from_kvs`. -/
def items_from_kvs (kvs : Kvs) : Except Err (List Item) :=
  decodeSeq "item" Item.parse 0 (iterSeq kvs "Item".data)

/-- `MonsterKind` (`monster.rs`): small-integer enum code 0–14. -/
inductive MonsterKind where
  | Fighter | Mage | Priest | Thief | Midget | Giant | Myth | Dragon
  | Animal | Werecreature | Undead | Demon | Insect | Enchanted | Mystery
  deriving DecidableEq, Repr

/-- `num_enum` `TryFromPrimitive` for `MonsterKind`. -/
def MonsterKind.fromCode : Nat → Option MonsterKind
  | 0 => some .Fighter
  | 1 => some .Mage
  | 2 => some .Priest
  | 3 => some .Thief
  | 4 => some .Midget
  | 5 => some .Giant
  | 6 => some .Myth
  | 7 => some .Dragon
  | 8 => some .Animal
  | 9 => some .Werecreature
  | 10 => some .Undead
  | 11 => some .Demon
  | 12 => some .Insect
  | 13 => some .Enchanted
  | 14 => some .Mystery
  | _ => none

/-- `MonsterFollower` (`monster.rs`). -/
structure MonsterFollower where
  id_expr : Str
  prob : Nat
  deriving DecidableEq, Repr

/-- `Monster` (`monster.rs`). -/
structure Monster where
  id : Nat
  name_ident : Str
  name_unident : Str
  name_plural_ident : Str
  name_plural_unident : Str
  kind : MonsterKind
  xl_expr : Str
  hp_expr : Str
  mp_expr : Str
  ac_expr : Str
  stats : List Nat
  damage_expr : Str
  attack_count_expr : Str
  attack_debuff_mask : Nat
  poison_damage : Nat
  drain_xl : Nat
  spell_levels : List Nat
  healing : Int
  resist_mask : Nat
  spell_cancel : Int
  vuln_mask : Nat
  can_flee : Bool
  can_call : Bool
  friendly_prob : Nat
  count_in_group_expr : Str
  follower : Option MonsterFollower
  xp_expr : Str
  is_invincible : Bool
  attack_twice : Bool
  description : Str
  hide_in_catalog : Bool
  deriving DecidableEq, Repr

/-- `monster.rs` `parse_attack_debuff_mask`: decimal-digit scan then
`DebuffMask::from_bits` validation. -/
def Monster.parse_attack_debuff_mask (s : Str) : Except Err Nat :=
  match accumBits decDigitVal s with
  | none => .error (.fieldErr "invalid attack effect char")
  | some bits =>
    match DebuffMask.fromBits bits with
    | none => .error (.fieldErr "unknown debuff mask bit")
    | some mask => .ok mask

/-- The 13-entry `(bit position, flag)` translation table of
`monster.rs` `parse_resist_mask`. -/
def Monster.TRANSLATION : List (Nat × Nat) :=
  [(0, ResistMask.SLEEP), (1, ResistMask.KNOCKOUT), (2, ResistMask.CRITICAL),
   (3, ResistMask.DEATH), (4, ResistMask.FIRE), (5, ResistMask.COLD),
   (6, ResistMask.ELECTRIC), (7, ResistMask.HOLY), (8, ResistMask.GENERIC),
   (9, ResistMask.SILENCE), (10, ResistMask.POISON), (11, ResistMask.PARALYSIS),
   (12, ResistMask.PETRIFICATION)]

/-- The remapping loop of `monster.rs` `parse_resist_mask`: each bit of the
accumulator present in the table contributes its flag; other bits contribute
nothing. -/
def Monster.translate (bits : Nat) : Nat :=
  Monster.TRANSLATION.foldl
    (fun mask p => if bits &&& (1 <<< p.1) ≠ 0 then mask ||| p.2 else mask) 0

/-- `monster.rs` `parse_resist_mask`: hex-digit scan then translation.
Unlike `util::parse_resist_mask` there is no `from_bits` validation. -/
def Monster.parse_resist_mask (s : Str) : Except Err Nat :=
  match accumBits hexDigitVal s with
  | none => .error (.fieldErr "invalid element char")
  | some bits => .ok (Monster.translate bits)

/-- `monster.rs` `parse_follower`. -/
def Monster.parse_follower (s_id s_prob : Str) : Except Err (Option MonsterFollower) :=
  if s_id = [] then .ok none
  else do
    let prob ← if s_prob = [] then (.ok 50 : Except Err Nat) else reqU32 s_prob
    .ok (some { id_expr := s_id, prob := prob })

/-- `monster.rs` `parse`. -/
def Monster.parse (id : Nat) (text : Str) : Except Err Monster :=
  let fields := splitOn "<>".data text
  if 49 ≤ fields.length then do
    let kindCode ← reqU8 (fieldAt fields 4)
    let kind ← req (MonsterKind.fromCode kindCode) (.fieldErr "invalid monster kind value")
    let stats ← parseU32List (fieldAt fields 10)
    let attack_debuff_mask ← Monster.parse_attack_debuff_mask (fieldAt fields 19)
    let poison_damage ← reqU32 (fieldAt fields 14)
    let drain_xl ← reqU32 (fieldAt fields 15)
    let spell_levels ← parseU32List (fieldAt fields 18)
    let healing ← reqI32 (fieldAt fields 16)
    let resist_mask ← Monster.parse_resist_mask (fieldAt fields 22)
    let spell_cancel ← reqI32 (fieldAt fields 17)
    let vuln_mask ← Monster.parse_resist_mask (fieldAt fields 23)
    let can_flee ← reqBool (fieldAt fields 25)
    let can_call ← reqBool (fieldAt fields 24)
    let friendly_prob ← reqU32 (fieldAt fields 26)
    let follower ← Monster.parse_follower (fieldAt fields 29) (fieldAt fields 28)
    let is_invincible ← reqBool (fieldAt fields 39)
    let attack_twice ← reqBool (fieldAt fields 40)
    let hide_in_catalog ← reqBool (fieldAt fields 48)
    .ok { id := id, name_ident := fieldAt fields 0, name_unident := fieldAt fields 1,
          name_plural_ident := fieldAt fields 2, name_plural_unident := fieldAt fields 3,
          kind := kind, xl_expr := fieldAt fields 5, hp_expr := fieldAt fields 7,
          mp_expr := fieldAt fields 8, ac_expr := fieldAt fields 9, stats := stats,
          damage_expr := fieldAt fields 12, attack_count_expr := fieldAt fields 13,
          attack_debuff_mask := attack_debuff_mask, poison_damage := poison_damage,
          drain_xl := drain_xl, spell_levels := spell_levels, healing := healing,
          resist_mask := resist_mask, spell_cancel := spell_cancel,
          vuln_mask := vuln_mask, can_flee := can_flee, can_call := can_call,
          friendly_prob := friendly_prob, count_in_group_expr := fieldAt fields 27,
          follower := follower, xp_expr := fieldAt fields 6,
          is_invincible := is_invincible, attack_twice := attack_twice,
          description := fieldAt fields 45, hide_in_catalog := hide_in_catalog }
  else .error (.fieldErr "monster text must have at least 49 fields")

/-- `monster.rs` `monsters_from_kvs`. -/
def monsters_from_kvs (kvs : Kvs) : Except Err (List Monster) :=
  decodeSeq "monster" Monster.parse 0 (iterSeq kvs "Monster".data)

/-! ## Scenario aggregator (`scenario.rs`) -/

/-- `Scenario` (`scenario.rs`). -/
structure Scenario where
  editor_version : Str
  id : Str
  title : Str
  stats : List Stat
  races : List Race
  classes : List Class
  spell_realms : List SpellRealm
  items : List Item
  monsters : List Monster
  deriving DecidableEq, Repr

/-- Body of `Scenario::load_from_plaintext` after the KVS parse. -/
def loadFromKvs (kvs : Kvs) : Except Err Scenario := do
  let editor_version ← getExpect kvs "Version".data
  let idv ← getExpect kvs "ReadKeyword".data
  let title ← getExpect kvs "GameTitle".data
  let stats ← stats_from_kvs kvs
  let races ← races_from_kvs kvs
  let classes ← classes_from_kvs kvs
  let spell_realms ← spell_realms_from_kvs kvs
  let items ← items_from_kvs kvs
  let monsters ← monsters_from_kvs kvs
  .ok { editor_version := editor_version, id := idv, title := title,
        stats := stats, races := races, classes := classes,
        spell_realms := spell_realms, items := items, monsters := monsters }

/-- `Scenario::load_from_plaintext`. -/
def loadFromPlaintext (plaintext : Str) : Except Err Scenario := do
  let kw ← kvsParse plaintext
  loadFromKvs kw.1

/-! ## Cipher engine (`cipher.rs`)

`cipher.rs` composes external crates: `Des` (the 64-bit block cipher),
`Md5` (the key digest) and `block_modes::Ecb<_, Pkcs7>`.  Those crates are
not part of this repository, so following the spec (§4.1) the block cipher
is kept as a parameter (an arbitrary length-preserving permutation of
8-byte blocks) while the repository-owned composition — ECB blocking,
byte-padding removal, UTF-8 validation and the take-8-bytes key
derivation — is modelled concretely.  Bytes are `Nat`s. -/

/-- `cipher.rs` `make_key`: the first 8 bytes of the (externally computed)
128-bit digest of the fixed passphrase. -/
def make_key (digest : List Nat) : List Nat := digest.take 8

/-- Modelled from the spec: PKCS7 byte padding for block size 8 (the
`block_modes` crate's padder; always appends 1–8 bytes whose value is the
pad length). -/
def pkcs7Pad (data : List Nat) : List Nat :=
  let p := 8 - data.length % 8
  data ++ List.replicate p p

/-- Modelled from the spec: PKCS7 padding removal for block size 8; fails
(`CryptoError::BadPadding`) when the trailing padding bytes are malformed. -/
def pkcs7Unpad (data : List Nat) : Except Err (List Nat) :=
  match data.getLast? with
  | none => .error .badPadding
  | some n =>
    if n = 0 ∨ 8 < n ∨ data.length < n then .error .badPadding
    else if data.drop (data.length - n) = List.replicate n n then
      .ok (data.take (data.length - n))
    else .error .badPadding

/-- Fuelled 8-byte blocking. -/
def toBlocksF : Nat → List Nat → List (List Nat)
  | _, [] => []
  | 0, l => [l]
  | fuel + 1, l => l.take 8 :: toBlocksF fuel (l.drop 8)

/-- Split a byte list into consecutive 8-byte blocks (ECB mode operates on
each independently). -/
def toBlocks (l : List Nat) : List (List Nat) := toBlocksF l.length l

/-- Modelled from the spec: UTF-8 encoding of one character
(`String::from_utf8`'s inverse is in the Rust standard library, not this
repository). -/
def utf8EncodeChar (c : Char) : List Nat :=
  let v := c.toNat
  if v < 0x80 then [v]
  else if v < 0x800 then [0xC0 + v / 64, 0x80 + v % 64]
  else if v < 0x10000 then
    [0xE0 + v / 4096, 0x80 + v / 64 % 64, 0x80 + v % 64]
  else
    [0xF0 + v / 262144, 0x80 + v / 4096 % 64, 0x80 + v / 64 % 64, 0x80 + v % 64]

/-- UTF-8 encoding of a string. -/
def utf8Encode (s : Str) : List Nat := s.foldr (fun c acc => utf8EncodeChar c ++ acc) []

/-- Two-byte continuation step of the UTF-8 decoder (`k` decodes the
remaining bytes). -/
def utf8Cont1 (k : List Nat → Option Str) (b0 : Nat) : List Nat → Option Str
  | b1 :: r =>
    if 0x80 ≤ b1 ∧ b1 < 0xC0 then
      (k r).map (Char.ofNat ((b0 - 0xC0) * 64 + (b1 - 0x80)) :: ·)
    else none
  | [] => none

/-- Three-byte continuation step of the UTF-8 decoder (rejects overlong
forms and surrogates). -/
def utf8Cont2 (k : List Nat → Option Str) (b0 : Nat) : List Nat → Option Str
  | b1 :: b2 :: r =>
    if (0x80 ≤ b1 ∧ b1 < 0xC0) ∧ (0x80 ≤ b2 ∧ b2 < 0xC0) ∧
        (b0 = 0xE0 → 0xA0 ≤ b1) ∧ (b0 = 0xED → b1 < 0xA0) then
      (k r).map (Char.ofNat ((b0 - 0xE0) * 4096 + (b1 - 0x80) * 64 + (b2 - 0x80)) :: ·)
    else none
  | _ => none

/-- Four-byte continuation step of the UTF-8 decoder (rejects overlong
forms and values above U+10FFFF). -/
def utf8Cont3 (k : List Nat → Option Str) (b0 : Nat) : List Nat → Option Str
  | b1 :: b2 :: b3 :: r =>
    if (0x80 ≤ b1 ∧ b1 < 0xC0) ∧ (0x80 ≤ b2 ∧ b2 < 0xC0) ∧ (0x80 ≤ b3 ∧ b3 < 0xC0) ∧
        (b0 = 0xF0 → 0x90 ≤ b1) ∧ (b0 = 0xF4 → b1 < 0x90) then
      (k r).map
        (Char.ofNat ((b0 - 0xF0) * 262144 + (b1 - 0x80) * 4096 +
          (b2 - 0x80) * 64 + (b3 - 0x80)) :: ·)
    else none
  | _ => none

/-- Modelled from the spec: fuelled strict UTF-8 decoding
(`String::from_utf8`), rejecting truncated sequences, bad continuation
bytes, overlong forms, surrogates and out-of-range values. -/
def utf8DecodeF : Nat → List Nat → Option Str
  | _, [] => some []
  | 0, _ :: _ => none
  | fuel + 1, b0 :: rest =>
    if b0 < 0x80 then (utf8DecodeF fuel rest).map (Char.ofNat b0 :: ·)
    else if b0 < 0xC2 then none
    else if b0 < 0xE0 then utf8Cont1 (utf8DecodeF fuel) b0 rest
    else if b0 < 0xF0 then utf8Cont2 (utf8DecodeF fuel) b0 rest
    else if b0 < 0xF5 then utf8Cont3 (utf8DecodeF fuel) b0 rest
    else none

/-- UTF-8 decoding of a byte list (`none` when the bytes are not valid UTF-8). -/
def utf8Decode (bs : List Nat) : Option Str := utf8DecodeF bs.length bs

/-- `cipher.rs` `decrypt`, with the keyed DES block decryption as the
parameter `blockDec`: length check (`CryptoError::BadLength`), independent
per-block decryption (ECB), padding removal (`CryptoError::BadPadding`),
UTF-8 validation (`CryptoError::NotUtf8`). -/
def decryptWith (blockDec : List Nat → List Nat) (ciphertext : List Nat) : Except Err Str :=
  if ciphertext.length % 8 ≠ 0 then .error .badLength
  else do
    let padded := ((toBlocks ciphertext).map blockDec).flatten
    let unpadded ← pkcs7Unpad padded
    match utf8Decode unpadded with
    | some s => .ok s
    | none => .error .notUtf8

/-- The encryption direction (not present in the repository; the spec's
known-vector contract): UTF-8 encode, pad, ECB-encrypt each 8-byte block. -/
def encryptWith (blockEnc : List Nat → List Nat) (plaintext : Str) : List Nat :=
  ((toBlocks (pkcs7Pad (utf8Encode plaintext))).map blockEnc).flatten

/-! ## Decimal rendering facts -/

theorem digitChar_toNat {d : Nat} (h : d < 10) : (digitChar d).toNat = 48 + d := by
  interval_cases d <;> decide

theorem isDigitC_digitChar {d : Nat} (h : d < 10) : isDigitC (digitChar d) = true := by
  interval_cases d <;> decide

theorem digitVal_digitChar {d : Nat} (h : d < 10) : digitVal (digitChar d) = d := by
  simp [digitVal, digitChar_toNat h]

theorem valNat_concat (l : Str) (c : Char) : valNat (l ++ [c]) = valNat l * 10 + digitVal c := by
  simp [valNat, List.foldl_append]

theorem natToDigitsF_spec :
    ∀ fuel n, n < fuel →
      natToDigitsF fuel n ≠ [] ∧ (natToDigitsF fuel n).all isDigitC = true ∧
        valNat (natToDigitsF fuel n) = n := by
  intro fuel
  induction fuel with
  | zero => omega
  | succ f ih =>
    intro n hn
    by_cases h10 : n < 10
    · simp only [natToDigitsF, if_pos h10]
      refine ⟨by simp, ?_, ?_⟩
      · simp [isDigitC_digitChar h10]
      · simp [valNat, digitVal_digitChar h10]
    · have hdiv : n / 10 < n := Nat.div_lt_self (by omega) (by norm_num)
      have hf : n / 10 < f := by omega
      obtain ⟨hne, hall, hval⟩ := ih (n / 10) hf
      simp only [natToDigitsF, if_neg h10]
      refine ⟨by simp, ?_, ?_⟩
      · have hm : n % 10 < 10 := Nat.mod_lt _ (by norm_num)
        simp [List.all_append, hall, isDigitC_digitChar hm]
      · have hm : n % 10 < 10 := Nat.mod_lt _ (by norm_num)
        rw [valNat_concat, hval, digitVal_digitChar hm]
        omega

theorem natToDigits_ne_nil (n : Nat) : natToDigits n ≠ [] :=
  (natToDigitsF_spec (n + 1) n (by omega)).1

theorem natToDigits_all_digits (n : Nat) : (natToDigits n).all isDigitC = true :=
  (natToDigitsF_spec (n + 1) n (by omega)).2.1

theorem valNat_natToDigits (n : Nat) : valNat (natToDigits n) = n :=
  (natToDigitsF_spec (n + 1) n (by omega)).2.2

theorem natToDigits_injective {m n : Nat} (h : natToDigits m = natToDigits n) : m = n := by
  have := valNat_natToDigits m
  rw [h, valNat_natToDigits] at this
  omega

theorem stripPlus_of_all_digits {s : Str} (hne : s ≠ []) (hall : s.all isDigitC = true) :
    stripPlus s = s := by
  cases s with
  | nil => simp at hne
  | cons c r =>
    have hc : isDigitC c = true := by
      simp [List.all_cons] at hall
      exact hall.1
    have : ¬c = '+' := by
      intro hEq
      rw [hEq] at hc
      simp [isDigitC] at hc
    simp [stripPlus, this]

theorem parseNatCore_natToDigits (n : Nat) : parseNatCore (natToDigits n) = some n := by
  simp [parseNatCore, natToDigits_ne_nil n, natToDigits_all_digits n, valNat_natToDigits n]

theorem parseU32_natToDigits (n : Nat) :
    parseU32 (natToDigits n) = if n < 2 ^ 32 then some n else none := by
  rw [parseU32, stripPlus_of_all_digits (natToDigits_ne_nil n) (natToDigits_all_digits n),
    parseNatCore_natToDigits]
  rfl

/-! ## `splitOn` facts -/

theorem splitOnGo_of_not_mem {sep : Str} {c0 : Char} (hs : sep.head? = some c0) :
    ∀ (rest : Str) (fuel : Nat) (acc : Str), c0 ∉ rest →
      splitOnGo sep fuel acc rest = [acc.reverse ++ rest] := by
  intro rest
  induction rest with
  | nil =>
    intro fuel acc _
    cases fuel with
    | zero => rfl
    | succ f =>
      obtain ⟨s', rfl⟩ : ∃ s', sep = c0 :: s' := by
        cases sep with
        | nil => simp at hs
        | cons a as => simp at hs; exact ⟨as, by rw [hs]⟩
      simp [splitOnGo, List.isPrefixOf]
  | cons r rs ih =>
    intro fuel acc hmem
    have hcr : c0 ≠ r := fun hEq => hmem (hEq ▸ List.mem_cons_self r rs)
    have hrs : c0 ∉ rs := fun hin => hmem (List.mem_cons_of_mem r hin)
    cases fuel with
    | zero => rfl
    | succ f =>
      obtain ⟨s', rfl⟩ : ∃ s', sep = c0 :: s' := by
        cases sep with
        | nil => simp at hs
        | cons a as => simp at hs; exact ⟨as, by rw [hs]⟩
      have hpre : (c0 :: s').isPrefixOf (r :: rs) = false := by
        simp [List.isPrefixOf, hcr]
      simp only [splitOnGo, hpre, Bool.false_eq_true, and_false, if_neg, ne_eq,
        not_false_iff]
      rw [ih f (r :: acc) hrs]
      simp

theorem splitOn_of_not_mem {sep s : Str} {c0 : Char} (hs : sep.head? = some c0)
    (h : c0 ∉ s) : splitOn sep s = [s] := by
  rw [splitOn, splitOnGo_of_not_mem hs s (s.length + 1) [] h]
  simp

/-! ## Equip-mask token facts -/

/-- The text `class[N]` with a decimal `N`. -/
def classTok (n : Nat) : Str := "class[".data ++ natToDigits n ++ [']']

/-- The text `race[N]` with a decimal `N`. -/
def raceTok (n : Nat) : Str := "race[".data ++ natToDigits n ++ [']']

theorem mem_of_all_digits {s : Str} (hall : s.all isDigitC = true) {c : Char} (hc : c ∈ s) :
    isDigitC c = true := by
  rw [List.all_eq_true] at hall
  exact hall c hc

theorem not_lt_mem_natToDigits (n : Nat) : '<' ∉ natToDigits n := by
  intro hmem
  have := mem_of_all_digits (natToDigits_all_digits n) hmem
  simp [isDigitC] at this

theorem matchBracketTok_concat (lit d : Str) (hne : d ≠ []) (hall : d.all isDigitC = true) :
    matchBracketTok lit (lit ++ d ++ [']']) = some d := by
  have hpre : lit.isPrefixOf (lit ++ d ++ [']']) = true := by
    rw [List.isPrefixOf_iff_prefix, List.append_assoc]
    exact List.prefix_append lit (d ++ [']'])
  have hdrop : (lit ++ d ++ [']']).drop lit.length = d ++ [']'] := by
    rw [List.append_assoc, List.drop_left]
  simp [matchBracketTok, hpre, hdrop, List.getLast?_concat, List.dropLast_concat, hne, hall]

theorem splitOn_plus_classTok (n : Nat) : splitOn "<+>".data (classTok n) = [classTok n] := by
  apply splitOn_of_not_mem (show ("<+>".data).head? = some '<' from rfl)
  intro hmem
  rw [classTok, List.append_assoc, List.mem_append] at hmem
  rcases hmem with h | h
  · simp at h
  · rw [List.mem_append] at h
    rcases h with h | h
    · exact not_lt_mem_natToDigits n h
    · simp at h

theorem splitOn_plus_raceTok (n : Nat) : splitOn "<+>".data (raceTok n) = [raceTok n] := by
  apply splitOn_of_not_mem (show ("<+>".data).head? = some '<' from rfl)
  intro hmem
  rw [raceTok, List.append_assoc, List.mem_append] at hmem
  rcases hmem with h | h
  · simp at h
  · rw [List.mem_append] at h
    rcases h with h | h
    · exact not_lt_mem_natToDigits n h
    · simp at h

theorem classTok_ne_dash (n : Nat) : classTok n ≠ "-".data := by
  intro h
  have hlen := congrArg List.length h
  have hpos := List.length_pos.mpr (natToDigits_ne_nil n)
  simp [classTok] at hlen

theorem raceTok_ne_dash (n : Nat) : raceTok n ≠ "-".data := by
  intro h
  have hlen := congrArg List.length h
  have hpos := List.length_pos.mpr (natToDigits_ne_nil n)
  simp [raceTok] at hlen

theorem parse_equip_class_mask_classTok (n : Nat) :
    parse_equip_class_mask (classTok n) =
      if n < 2 ^ 32 then
        (if n < 36 then .ok (1 <<< n) else .error (.fieldErr "invalid class"))
      else .error (.fieldErr "invalid u32") := by
  rw [parse_equip_class_mask, if_neg (classTok_ne_dash n), splitOn_plus_classTok]
  have hmt := matchBracketTok_concat "class[".data (natToDigits n)
    (natToDigits_ne_nil n) (natToDigits_all_digits n)
  rw [classTok] at *
  simp only [List.foldl_cons, List.foldl_nil, hmt]
  rw [reqU32, parseU32_natToDigits]
  by_cases h32 : n < 2 ^ 32
  · rw [if_pos h32, if_pos h32]
    by_cases h36 : n < 36
    · simp [req, Bind.bind, Except.bind, h36, Nat.zero_or, Except.pure, pure]
    · simp [req, Bind.bind, Except.bind, h36]
  · rw [if_neg h32, if_neg h32]
    simp [req, Bind.bind, Except.bind]


theorem parse_equip_race_mask_raceTok (n : Nat) :
    parse_equip_race_mask (raceTok n) =
      if n < 2 ^ 32 then
        (if n < 36 then .ok (1 <<< n) else .error (.fieldErr "invalid race"))
      else .error (.fieldErr "invalid u32") := by
  rw [parse_equip_race_mask, if_neg (raceTok_ne_dash n), splitOn_plus_raceTok]
  have hmt := matchBracketTok_concat "race[".data (natToDigits n)
    (natToDigits_ne_nil n) (natToDigits_all_digits n)
  rw [raceTok] at *
  simp only [List.foldl_cons, List.foldl_nil, hmt]
  rw [reqU32, parseU32_natToDigits]
  by_cases h32 : n < 2 ^ 32
  · rw [if_pos h32, if_pos h32]
    by_cases h36 : n < 36
    · simp [req, Bind.bind, Except.bind, h36, Nat.zero_or, Except.pure, pure]
    · simp [req, Bind.bind, Except.bind, h36]
  · rw [if_neg h32, if_neg h32]
    simp [req, Bind.bind, Except.bind]

theorem class_not_prefixOf_raceTok (n : Nat) :
    ("class[".data).isPrefixOf (raceTok n) = false := by
  rw [raceTok]
  rfl

theorem race_not_prefixOf_classTok (n : Nat) :
    ("race[".data).isPrefixOf (classTok n) = false := by
  rw [classTok]
  rfl

theorem matchBracketTok_none {lit s : Str} (h : lit.isPrefixOf s = false) :
    matchBracketTok lit s = none := by
  rw [matchBracketTok, h]
  simp

theorem parse_equip_class_mask_raceTok (n : Nat) :
    parse_equip_class_mask (raceTok n) = .error (.fieldErr "invalid class string") := by
  rw [parse_equip_class_mask, if_neg (raceTok_ne_dash n), splitOn_plus_raceTok]
  simp only [List.foldl_cons, List.foldl_nil,
    matchBracketTok_none (class_not_prefixOf_raceTok n)]
  rfl

theorem parse_equip_race_mask_classTok (n : Nat) :
    parse_equip_race_mask (classTok n) = .error (.fieldErr "invalid race string") := by
  rw [parse_equip_race_mask, if_neg (classTok_ne_dash n), splitOn_plus_classTok]
  simp only [List.foldl_cons, List.foldl_nil,
    matchBracketTok_none (race_not_prefixOf_classTok n)]
  rfl


/-- Claim C6: decoding `class[0]<+>class[5]` yields the 64-bit mask with
exactly bits 0 and 5 set (value 33); every token `class[N]` with `N < 36`
sets bit `N`; every token `class[N]` with `N ≥ 36` fails with an error
(so `class[36]` fails); and the sub-field `-` yields the zero mask. -/
theorem claim_C6 :
    (∀ n : Nat, n < 36 → parse_equip_class_mask (classTok n) = .ok (1 <<< n)) ∧
    (∀ n : Nat, 36 ≤ n → (parse_equip_class_mask (classTok n)).toOption = none) ∧
    parse_equip_class_mask "class[0]<+>class[5]".data = .ok 33 ∧
    (parse_equip_class_mask "class[36]".data).toOption = none ∧
    parse_equip_class_mask "-".data = .ok 0 := by
  refine ⟨?_, ?_, by rfl, by rfl, by rfl⟩
  · intro n h36
    have h32 : n < 2 ^ 32 := by omega
    rw [parse_equip_class_mask_classTok, if_pos h32, if_pos h36]
  · intro n h36
    rw [parse_equip_class_mask_classTok]
    by_cases h32 : n < 2 ^ 32
    · rw [if_pos h32, if_neg (by omega)]
      rfl
    · rw [if_neg h32]
      rfl

/-- Witness for C6 at concrete inputs `class[5]` and `class[36]`. -/
theorem claim_C6_witness :
    (5 < 36 ∧ parse_equip_class_mask (classTok 5) = .ok (1 <<< 5)) ∧
    (36 ≤ 36 ∧ (parse_equip_class_mask (classTok 36)).toOption = none) :=
  ⟨⟨by omega, claim_C6.1 5 (by omega)⟩, ⟨by omega, claim_C6.2.1 36 (by omega)⟩⟩

/-- Claim C10: the equip-eligibility field is positional.  The empty field
decodes to the zero mask pair without invoking the sub-parsers (which would
reject the empty string); a non-empty field must split on a comma into
exactly two sub-fields; the first sub-parser rejects every `race[N]` token
and the second rejects every `class[N]` token. -/
theorem claim_C10 :
    parse_equip_masks [] = .ok (0, 0) ∧
    (parse_equip_class_mask []).toOption = none ∧
    (parse_equip_race_mask []).toOption = none ∧
    (∀ s : Str, s ≠ [] → (splitOn [','] s).length ≠ 2 →
      (parse_equip_masks s).toOption = none) ∧
    (∀ s a b : Str, s ≠ [] → splitOn [','] s = [a, b] →
      parse_equip_masks s = do
        let c ← parse_equip_class_mask a
        let r ← parse_equip_race_mask b
        .ok (c, r)) ∧
    (∀ n : Nat, parse_equip_class_mask (raceTok n) = .error (.fieldErr "invalid class string")) ∧
    (∀ n : Nat, parse_equip_race_mask (classTok n) = .error (.fieldErr "invalid race string")) ∧
    (parse_equip_masks "race[0],race[0]".data).toOption = none ∧
    (parse_equip_masks "class[1],class[1]".data).toOption = none ∧
    parse_equip_masks "class[1],race[2]".data = .ok (2, 4) := by
  refine ⟨by rfl, by rfl, by rfl, ?_, ?_, parse_equip_class_mask_raceTok,
    parse_equip_race_mask_classTok, by rfl, by rfl, by rfl⟩
  · intro s hne hlen
    rw [parse_equip_masks, if_neg hne, if_neg hlen]
    rfl
  · intro s a b hne hsplit
    rw [parse_equip_masks, if_neg hne, hsplit]
    rfl

/-- Witness for C10 at the concrete input `class[0],race[1]`. -/
theorem claim_C10_witness :
    (("class[0],race[1]".data : Str) ≠ [] ∧
      splitOn [','] "class[0],race[1]".data = ["class[0]".data, "race[1]".data]) ∧
    parse_equip_masks "class[0],race[1]".data = (do
      let c ← parse_equip_class_mask "class[0]".data
      let r ← parse_equip_race_mask "race[1]".data
      .ok (c, r)) :=
  ⟨⟨by simp, by rfl⟩,
    claim_C10.2.2.2.2.1 "class[0],race[1]".data "class[0]".data "race[1]".data
      (by simp) (by rfl)⟩


/-! ## Flag-set validation facts (C1, C2) -/

theorem util_parse_resist_mask_cases (s : Str) (bits : Nat)
    (h : accumBits hexDigitVal s = some bits) :
    (Util.parse_resist_mask s = .ok bits ↔ bits ||| ResistMask.ALL = ResistMask.ALL) ∧
    ((Util.parse_resist_mask s).toOption = none ↔ bits ||| ResistMask.ALL ≠ ResistMask.ALL) := by
  rw [Util.parse_resist_mask, h]
  simp only [ResistMask.fromBits]
  by_cases hb : bits ||| ResistMask.ALL = ResistMask.ALL
  · simp [hb, Except.toOption]
  · simp [hb, Except.toOption]

theorem util_parse_monster_kind_mask_cases (s : Str) (bits : Nat)
    (h : accumBits hexDigitVal s = some bits) :
    (Util.parse_monster_kind_mask s = .ok bits ↔ bits ||| MonsterKindMask.ALL = MonsterKindMask.ALL) ∧
    ((Util.parse_monster_kind_mask s).toOption = none ↔
      bits ||| MonsterKindMask.ALL ≠ MonsterKindMask.ALL) := by
  rw [Util.parse_monster_kind_mask, h]
  simp only [MonsterKindMask.fromBits]
  by_cases hb : bits ||| MonsterKindMask.ALL = MonsterKindMask.ALL
  · simp [hb, Except.toOption]
  · simp [hb, Except.toOption]

theorem monster_parse_attack_debuff_mask_cases (s : Str) (bits : Nat)
    (h : accumBits decDigitVal s = some bits) :
    (Monster.parse_attack_debuff_mask s = .ok bits ↔ bits ||| DebuffMask.ALL = DebuffMask.ALL) ∧
    ((Monster.parse_attack_debuff_mask s).toOption = none ↔
      bits ||| DebuffMask.ALL ≠ DebuffMask.ALL) := by
  rw [Monster.parse_attack_debuff_mask, h]
  simp only [DebuffMask.fromBits]
  by_cases hb : bits ||| DebuffMask.ALL = DebuffMask.ALL
  · simp [hb, Except.toOption]
  · simp [hb, Except.toOption]

theorem monster_parse_resist_mask_total (s : Str) (bits : Nat)
    (h : accumBits hexDigitVal s = some bits) :
    Monster.parse_resist_mask s = .ok (Monster.translate bits) := by
  rw [Monster.parse_resist_mask, h]

/-- A well-formed 49-field monster text whose resistance field (index 22)
is the single hex digit `d` (value 13). -/
def monsterTextResistD : Str :=
  ("A<>B<>As<>Bs<>0<>1<>xp<>hp<>mp<>ac<>1<>u11<>dmg<>cnt<>0<>0<>0<>0<>0<>0<>" ++
   "u20<>u21<>d<><>false<>false<>0<>grp<><><>u30<>u31<>u32<>u33<>u34<>u35<>" ++
   "u36<>u37<>u38<>false<>false<>u41<>u42<>u43<>u44<>desc<>u46<>u47<>false").data

/-- Claim C1 counterexample: the hex digit `d` sets accumulator bit 13,
which is outside the monster translation table — yet the monster
resistance decode succeeds (with the bit silently dropped, here yielding
the empty mask), and a whole monster whose resistance field is `"d"`
decodes without error.  The claim says this must fail. -/
theorem claim_C1_counterexample :
    Monster.parse_resist_mask "d".data = .ok 0 ∧
    (Monster.parse 0 monsterTextResistD).toOption.map (fun m => m.resist_mask) = some 0 :=
  ⟨rfl, rfl⟩

/-- Claim C1 (amended): for the generic flag-set decodes — the
`util::parse_resist_mask` used by Race/Item, `util::parse_monster_kind_mask`,
and the monster attack-debuff decode — an accumulator bit outside the
defined set is a hard failure and a fully defined accumulator succeeds
unchanged; but the monster resistance/vulnerability decode never validates:
it always succeeds on digit-scannable input, mapping through the 13-entry
translation table, under which accumulator bits 13–15 contribute nothing. -/
theorem claim_C1_amended :
    (∀ (s : Str) (bits : Nat), accumBits hexDigitVal s = some bits →
      (Util.parse_resist_mask s = .ok bits ↔ bits ||| ResistMask.ALL = ResistMask.ALL) ∧
      ((Util.parse_resist_mask s).toOption = none ↔ bits ||| ResistMask.ALL ≠ ResistMask.ALL)) ∧
    (∀ (s : Str) (bits : Nat), accumBits hexDigitVal s = some bits →
      (Util.parse_monster_kind_mask s = .ok bits ↔
        bits ||| MonsterKindMask.ALL = MonsterKindMask.ALL) ∧
      ((Util.parse_monster_kind_mask s).toOption = none ↔
        bits ||| MonsterKindMask.ALL ≠ MonsterKindMask.ALL)) ∧
    (∀ (s : Str) (bits : Nat), accumBits decDigitVal s = some bits →
      (Monster.parse_attack_debuff_mask s = .ok bits ↔ bits ||| DebuffMask.ALL = DebuffMask.ALL) ∧
      ((Monster.parse_attack_debuff_mask s).toOption = none ↔
        bits ||| DebuffMask.ALL ≠ DebuffMask.ALL)) ∧
    (∀ (s : Str) (bits : Nat), accumBits hexDigitVal s = some bits →
      Monster.parse_resist_mask s = .ok (Monster.translate bits)) ∧
    Monster.translate (1 <<< 13) = 0 ∧ Monster.translate (1 <<< 14) = 0 ∧
    Monster.translate (1 <<< 15) = 0 :=
  ⟨util_parse_resist_mask_cases, util_parse_monster_kind_mask_cases,
    monster_parse_attack_debuff_mask_cases, monster_parse_resist_mask_total,
    rfl, rfl, rfl⟩

/-- Witness for C1 (amended) at the undefined generic bit 9 (hex digit `9`)
and at the monster digit `d` (bit 13). -/
theorem claim_C1_witness :
    (accumBits hexDigitVal "9".data = some 512 ∧
      ((Util.parse_resist_mask "9".data).toOption = none ↔
        512 ||| ResistMask.ALL ≠ ResistMask.ALL)) ∧
    (accumBits hexDigitVal "d".data = some 8192 ∧
      Monster.parse_resist_mask "d".data = .ok (Monster.translate 8192)) :=
  ⟨⟨rfl, (claim_C1_amended.1 "9".data 512 rfl).2⟩,
    ⟨rfl, claim_C1_amended.2.2.2.1 "d".data 8192 rfl⟩⟩

/-- Claim C2 counterexample: the claim says the generic decode of `"a"`
yields exactly the Poison resistance flag; it actually yields the Fire
flag (bit 10 of `ResistMask` is `FIRE`). -/
theorem claim_C2_counterexample :
    Util.parse_resist_mask "a".data = .ok ResistMask.FIRE ∧
    ResistMask.FIRE ≠ ResistMask.POISON :=
  ⟨rfl, by decide⟩

/-- Claim C2 (amended): the generic resistance decode of `"a"`
(hex digit 10) yields exactly the Fire resistance flag, while the monster
resistance decode of the same string remaps bit 10 through the 13-entry
translation table and yields exactly the Poison flag — a different named
resistance. -/
theorem claim_C2_amended :
    Util.parse_resist_mask "a".data = .ok ResistMask.FIRE ∧
    Monster.parse_resist_mask "a".data = .ok ResistMask.POISON ∧
    ResistMask.POISON ≠ ResistMask.FIRE :=
  ⟨rfl, rfl, by decide⟩


/-! ## Monster follower defaulting (C9) -/

/-- A well-formed 49-field monster text whose follower id field (index 29)
is `5` and whose follower probability field (index 28) is empty. -/
def monsterTextFollowerDefault : Str :=
  ("A<>B<>As<>Bs<>0<>1<>xp<>hp<>mp<>ac<>1<>u11<>dmg<>cnt<>0<>0<>0<>0<>0<>0<>" ++
   "u20<>u21<><><>false<>false<>0<>grp<><>5<>u30<>u31<>u32<>u33<>u34<>u35<>" ++
   "u36<>u37<>u38<>false<>false<>u41<>u42<>u43<>u44<>desc<>u46<>u47<>false").data

/-- A well-formed 49-field monster text whose follower id field (index 29)
is empty while the probability field (index 28) is `77`. -/
def monsterTextFollowerAbsent : Str :=
  ("A<>B<>As<>Bs<>0<>1<>xp<>hp<>mp<>ac<>1<>u11<>dmg<>cnt<>0<>0<>0<>0<>0<>0<>" ++
   "u20<>u21<><><>false<>false<>0<>grp<>77<><>u30<>u31<>u32<>u33<>u34<>u35<>" ++
   "u36<>u37<>u38<>false<>false<>u41<>u42<>u43<>u44<>desc<>u46<>u47<>false").data

/-- Claim C9: the optional follower is decided by the id-expression field
with a defaulting rule on the probability field — empty id means no
follower regardless of the probability text; non-empty id with empty
probability defaults to probability 50; non-empty id with parseable
probability uses it; non-empty id with a non-parseable, non-empty
probability fails the decode.  The two concrete monster decodes show the
rule acting inside `Monster::parse` (fields 29 and 28). -/
theorem claim_C9 :
    (∀ s_prob : Str, Monster.parse_follower [] s_prob = .ok none) ∧
    (∀ s_id : Str, s_id ≠ [] →
      Monster.parse_follower s_id [] = .ok (some { id_expr := s_id, prob := 50 })) ∧
    (∀ (s_id s_prob : Str) (p : Nat), s_id ≠ [] → parseU32 s_prob = some p →
      Monster.parse_follower s_id s_prob = .ok (some { id_expr := s_id, prob := p })) ∧
    (∀ s_id s_prob : Str, s_id ≠ [] → s_prob ≠ [] → parseU32 s_prob = none →
      (Monster.parse_follower s_id s_prob).toOption = none) ∧
    (Monster.parse 0 monsterTextFollowerDefault).toOption.map (fun m => m.follower) =
      some (some { id_expr := "5".data, prob := 50 }) ∧
    (Monster.parse 0 monsterTextFollowerAbsent).toOption.map (fun m => m.follower) =
      some none := by
  refine ⟨?_, ?_, ?_, ?_, by rfl, by rfl⟩
  · intro s_prob
    rfl
  · intro s_id hne
    rw [Monster.parse_follower, if_neg hne]
    rfl
  · intro s_id s_prob p hne hp
    have hpne : s_prob ≠ [] := by
      intro hEq
      rw [hEq] at hp
      simp [parseU32, stripPlus, parseNatCore] at hp
    rw [Monster.parse_follower, if_neg hne]
    simp [hpne, reqU32, req, hp, Bind.bind, Except.bind]
  · intro s_id s_prob hne hpne hp
    rw [Monster.parse_follower, if_neg hne]
    simp [hpne, reqU32, req, hp, Bind.bind, Except.bind, Except.toOption]

/-- Witness for C9 at concrete follower fields. -/
theorem claim_C9_witness :
    (("7".data : Str) ≠ [] ∧ parseU32 "66".data = some 66 ∧
      Monster.parse_follower "7".data "66".data =
        .ok (some { id_expr := "7".data, prob := 66 })) ∧
    (("7".data : Str) ≠ [] ∧ (("x".data : Str) ≠ [] ∧ parseU32 "x".data = none) ∧
      (Monster.parse_follower "7".data "x".data).toOption = none) :=
  ⟨⟨by simp, rfl, claim_C9.2.2.1 "7".data "66".data 66 (by simp) rfl⟩,
    ⟨by simp, ⟨by simp, rfl⟩, claim_C9.2.2.2.1 "7".data "x".data (by simp) (by simp) rfl⟩⟩


/-! ## Sequential lookup (C4) -/

/-- The key probed by `iter_seq` at index `i`. -/
def seqKey (pre : Str) (i : Nat) : Str := pre ++ natToDigits i

theorem seqKey_injective (pre : Str) {i j : Nat} (h : seqKey pre i = seqKey pre j) : i = j :=
  natToDigits_injective (List.append_cancel_left h)

theorem findKvs_isSome_mem {m : Kvs} {k : Str} (h : (findKvs m k).isSome = true) :
    k ∈ m.map Prod.fst := by
  induction m with
  | nil => simp [findKvs] at h
  | cons p rest ih =>
    rw [findKvs] at h
    by_cases hk : p.1 = k
    · simp [hk]
    · rw [if_neg hk] at h
      simp [ih h]

theorem seq_run_le_length (kvs : Kvs) (pre : Str) (n : Nat)
    (hlt : ∀ j, j < n → (findKvs kvs (seqKey pre j)).isSome = true) :
    n ≤ kvs.length := by
  by_contra hgt
  push_neg at hgt
  have hnd : ((List.range n).map (seqKey pre)).Nodup :=
    List.Nodup.map (fun _ _ h => seqKey_injective pre h) (List.nodup_range n)
  have hsub : (List.range n).map (seqKey pre) ⊆ kvs.map Prod.fst := by
    intro x hx
    rw [List.mem_map] at hx
    obtain ⟨j, hj, rfl⟩ := hx
    exact findKvs_isSome_mem (hlt j (List.mem_range.mp hj))
  have := (List.subperm_of_subset hnd hsub).length_le
  simp at this
  omega

theorem iterSeqGo_spec (kvs : Kvs) (pre : Str) :
    ∀ (n fuel i : Nat), n < fuel →
      (∀ j, j < n → (findKvs kvs (seqKey pre (i + j))).isSome = true) →
      findKvs kvs (seqKey pre (i + n)) = none →
      iterSeqGo kvs pre fuel i =
        (List.range n).filterMap (fun j => findKvs kvs (seqKey pre (i + j))) := by
  intro n
  induction n with
  | zero =>
    intro fuel i hf _ hn
    cases fuel with
    | zero => omega
    | succ f =>
      rw [iterSeqGo]
      rw [show pre ++ natToDigits i = seqKey pre (i + 0) from by simp [seqKey]]
      rw [hn]
      simp
  | succ n ih =>
    intro fuel i hf hlt hn
    cases fuel with
    | zero => omega
    | succ f =>
      have h0 : (findKvs kvs (seqKey pre i)).isSome = true := by
        have := hlt 0 (by omega)
        simpa using this
      obtain ⟨v, hv⟩ := Option.isSome_iff_exists.mp h0
      rw [iterSeqGo]
      rw [show pre ++ natToDigits i = seqKey pre i from rfl]
      rw [hv]
      have hrec := ih f (i + 1) (by omega)
        (fun j hj => by
          have := hlt (j + 1) (by omega)
          rw [show i + (j + 1) = i + 1 + j from by omega] at this
          exact this)
        (by rw [show i + 1 + n = i + (n + 1) from by omega]; exact hn)
      rw [hrec, List.range_succ_eq_map, List.filterMap_cons]
      simp only [Nat.add_zero, Function.comp, hv]
      congr 1
      rw [List.filterMap_map]
      apply List.filterMap_congr
      intro j _
      have he : i + (j + 1) = i + 1 + j := by omega
      simp only [Function.comp_apply, Nat.succ_eq_add_one, he]

/-- A well-formed 39-field item text. -/
def itemTextOk : Str :=
  ("Sword<>?Sword<>0<>10<>0<><><>0<>0<>0<>1,2,3<>u11<>0<>0<>0<>u15<><><>0<>0<>" ++
   "bp<>-1<><>d<>u<>s<>1<>u27<>false<>false<>false<>false<>0,0<>false<>0<>false<>" ++
   "false<>u37<>u38").data

/-- A store holding `Item0`, `Item1` and `Item3` (no `Item2`); the `Item3`
value is not even a well-formed item text. -/
def itemGapKvs : Kvs :=
  [("Item0".data, itemTextOk), ("Item1".data, itemTextOk), ("Item3".data, "BROKEN".data)]

/-- Claim C4: for every store and prefix, `iter_seq` yields exactly the
values of the consecutive keys `P0 … P(n-1)` in index order, where `n` is
the least index whose key is absent; indices at or above the first gap are
never produced.  In particular the `Item0`/`Item1`/`Item3` store yields
exactly two item texts (never the `Item3` value, which is not even
parseable) and the decoded item list has length 2. -/
theorem claim_C4 :
    (∀ (kvs : Kvs) (pre : Str) (n : Nat),
      (∀ j, j < n → (findKvs kvs (seqKey pre j)).isSome = true) →
      findKvs kvs (seqKey pre n) = none →
      iterSeq kvs pre = (List.range n).filterMap (fun j => findKvs kvs (seqKey pre j))) ∧
    iterSeq itemGapKvs "Item".data = [itemTextOk, itemTextOk] ∧
    (items_from_kvs itemGapKvs).toOption.map List.length = some 2 := by
  refine ⟨?_, by rfl, by rfl⟩
  intro kvs pre n hlt hn
  have hle := seq_run_le_length kvs pre n hlt
  rw [iterSeq]
  have := iterSeqGo_spec kvs pre n (kvs.length + 1) 0 (by omega)
    (fun j hj => by simpa using hlt j hj) (by simpa using hn)
  rw [this]
  apply List.filterMap_congr
  intro j _
  simp

/-- Witness for C4: the universal characterization applied to the
`Item0`/`Item1`/`Item3` store at the least gap `n = 2`. -/
theorem claim_C4_witness :
    (∀ j, j < 2 → (findKvs itemGapKvs (seqKey "Item".data j)).isSome = true) ∧
    findKvs itemGapKvs (seqKey "Item".data 2) = none ∧
    iterSeq itemGapKvs "Item".data =
      (List.range 2).filterMap (fun j => findKvs itemGapKvs (seqKey "Item".data j)) := by
  refine ⟨?_, ?_, ?_⟩
  · decide
  · rfl
  · exact claim_C4.1 itemGapKvs "Item".data 2 (by decide) (by rfl)


/-! ## Spell realm monster-only flag (C7) -/

theorem SpellRealm.parse_flag {lc : Nat} {flag : Bool} {id : Nat} {t : Str} {r : SpellRealm}
    (h : SpellRealm.parse lc flag id t = .ok r) : r.is_only_for_monster = flag := by
  rw [SpellRealm.parse] at h
  by_cases harr : (splitOn "<-->".data t).length = lc + 1
  · rw [if_pos harr] at h
    cases hm : mapE parseSpellsOfLevel ((splitOn "<-->".data t).drop 1) with
    | error e =>
      rw [hm] at h
      simp [Bind.bind, Except.bind] at h
    | ok sp =>
      rw [hm] at h
      simp only [Bind.bind, Except.bind, Except.ok.injEq] at h
      rw [← h]
  · rw [if_neg harr] at h
    simp at h

theorem spellRealmsGo_spec (lc : Nat) (ex : Bool) :
    ∀ (ts : List Str) (i : Nat) (rs : List SpellRealm),
      spellRealmsGo lc ex i ts = .ok rs →
      rs.length = ts.length ∧
        ∀ (j : Nat) (hj : j < rs.length),
          (rs.get ⟨j, hj⟩).is_only_for_monster = (ex && decide (j + 1 = rs.length)) := by
  intro ts
  induction ts with
  | nil =>
    intro i rs h
    rw [spellRealmsGo] at h
    simp only [Except.ok.injEq] at h
    subst h
    exact ⟨rfl, fun j hj => absurd hj (by simp)⟩
  | cons t ts ih =>
    intro i rs h
    rw [spellRealmsGo] at h
    cases hp : SpellRealm.parse lc (ex && ts.isEmpty) i t with
    | error e =>
      rw [hp] at h
      simp at h
    | ok r =>
      rw [hp] at h
      cases hgo : spellRealmsGo lc ex (i + 1) ts with
      | error e =>
        rw [hgo] at h
        simp [Except.map] at h
      | ok rs' =>
        rw [hgo] at h
        simp only [Except.map, Except.ok.injEq] at h
        subst h
        obtain ⟨hlen, hflags⟩ := ih (i + 1) rs' hgo
        refine ⟨by simp [hlen], ?_⟩
        intro j hj
        cases j with
        | zero =>
          have hr := SpellRealm.parse_flag hp
          rw [List.get]
          rw [hr]
          have : ts.isEmpty = decide (0 + 1 = rs'.length + 1) := by
            cases ts with
            | nil =>
              have : rs' = [] := by
                cases rs' with
                | nil => rfl
                | cons a l => simp at hlen
              subst this
              simp
            | cons a l =>
              have : rs'.length = l.length + 1 := by simp [hlen]
              simp [List.isEmpty, this]
          rw [this]
          simp
        | succ j' =>
          have hj' : j' < rs'.length := by
            simp at hj
            omega
          have := hflags j' hj'
          rw [List.get]
          simp only [List.length_cons]
          rw [this]
          by_cases he : j' + 1 = rs'.length
          · simp [he]
          · have hne : ¬(j' + 1 + 1 = rs'.length + 1) := by omega
            simp [he, hne]

/-- Claim C7: a decoded spell realm's monster-only flag is true iff it is
the last realm of the sequence and the global `ExclusiveUseOfMonsters` key
parses as true; non-last realms always carry `false`, and nothing inside a
realm's own text influences the flag (the formula depends only on the
position and the global boolean). -/
theorem claim_C7 :
    ∀ (kvs : Kvs) (exS : Str) (b : Bool) (rs : List SpellRealm),
      findKvs kvs "ExclusiveUseOfMonsters".data = some exS →
      parseBoolR exS = some b →
      spell_realms_from_kvs kvs = .ok rs →
      ∀ (j : Nat) (hj : j < rs.length),
        (rs.get ⟨j, hj⟩).is_only_for_monster = (b && decide (j + 1 = rs.length)) := by
  intro kvs exS b rs hex hb h
  rw [spell_realms_from_kvs] at h
  simp only [Bind.bind, Except.bind] at h
  cases h1 : getExpect kvs "SpellLvNum".data with
  | error e =>
    rw [h1] at h
    simp at h
  | ok lvS =>
    rw [h1] at h
    dsimp only at h
    cases h2 : reqU32 lvS with
    | error e =>
      rw [h2] at h
      simp at h
    | ok lc =>
      rw [h2] at h
      dsimp only at h
      rw [show getExpect kvs "ExclusiveUseOfMonsters".data = .ok exS from by
        rw [getExpect, hex]] at h
      dsimp only at h
      rw [show reqBool exS = .ok b from by rw [reqBool, hb]; rfl] at h
      dsimp only at h
      exact (spellRealmsGo_spec lc b (iterSeq kvs "SpellKind".data) 0 rs h).2

/-- A store with two spell realms and the monster-only toggle on. -/
def kvsC7 : Kvs :=
  [("SpellLvNum".data, "1".data), ("ExclusiveUseOfMonsters".data, "true".data),
   ("SpellKind0".data, "A<-->".data), ("SpellKind1".data, "B<-->".data)]

/-- The decode of `kvsC7`: only the last realm is flagged. -/
def realmsC7 : List SpellRealm :=
  [{ id := 0, name := "A".data, level_count := 1, spells_of_levels := [[]],
     is_only_for_monster := false },
   { id := 1, name := "B".data, level_count := 1, spells_of_levels := [[]],
     is_only_for_monster := true }]

/-- Witness for C7: a two-realm store with the global toggle set. -/
theorem claim_C7_witness :
    findKvs kvsC7 "ExclusiveUseOfMonsters".data = some "true".data ∧
    parseBoolR "true".data = some true ∧
    spell_realms_from_kvs kvsC7 = .ok realmsC7 ∧
    ∀ (j : Nat) (hj : j < realmsC7.length),
      (realmsC7.get ⟨j, hj⟩).is_only_for_monster = (true && decide (j + 1 = realmsC7.length)) :=
  ⟨rfl, rfl, rfl, claim_C7 kvsC7 "true".data true realmsC7 rfl rfl rfl⟩


/-! ## Duplicate-key policy (C5) -/

/-- The key/value pairs of the well-formed, non-skipped lines, in order. -/
def pairsOf (pt : Str) : List (Str × Str) :=
  (linesOf pt).filterMap (fun l => ((parseLine l).toOption).bind id)

theorem findKvs_append (a b : Kvs) (k : Str) :
    findKvs (a ++ b) k = (findKvs a k).or (findKvs b k) := by
  induction a with
  | nil => simp [findKvs]
  | cons p rest ih =>
    rw [List.cons_append, findKvs, findKvs]
    by_cases hk : p.1 = k
    · simp [hk]
    · simp [hk, ih]

theorem kvsGo_spec :
    ∀ (ls : List Str) (m : Kvs) (ws : List (Str × Str)),
      (∀ l ∈ ls, (parseLine l).toOption ≠ none) →
      ∃ (m' : Kvs) (w' : List (Str × Str)), kvsGo ls m ws = .ok (m', w') ∧
        ∀ k : Str, findKvs m' k =
          (findKvs (ls.filterMap (fun l => ((parseLine l).toOption).bind id)).reverse k).or
            (findKvs m k) := by
  intro ls
  induction ls with
  | nil =>
    intro m ws _
    exact ⟨m, ws.reverse, rfl, fun k => by simp [findKvs]⟩
  | cons l ls ih =>
    intro m ws hok
    have hl : (parseLine l).toOption ≠ none := hok l (List.mem_cons_self l ls)
    have hrest : ∀ x ∈ ls, (parseLine x).toOption ≠ none :=
      fun x hx => hok x (List.mem_cons_of_mem l hx)
    rw [kvsGo]
    cases pl : parseLine l with
    | error e => rw [pl] at hl; simp [Except.toOption] at hl
    | ok o =>
      cases o with
      | none =>
        obtain ⟨m', w', hgo, hfind⟩ := ih m ws hrest
        refine ⟨m', w', hgo, fun k => ?_⟩
        rw [hfind k]
        simp [pl, Except.toOption]
      | some p =>
        obtain ⟨k0, v0⟩ := p
        have key_shape :
            ((l :: ls).filterMap (fun x => ((parseLine x).toOption).bind id)).reverse =
              (ls.filterMap (fun x => ((parseLine x).toOption).bind id)).reverse ++ [(k0, v0)] := by
          simp [pl, Except.toOption]
        cases hold : findKvs m k0 with
        | some old =>
          obtain ⟨m', w', hgo, hfind⟩ := ih (insertKvs m k0 v0) ((k0, old) :: ws) hrest
          dsimp only
          rw [hold]
          refine ⟨m', w', hgo, fun k => ?_⟩
          rw [hfind k, key_shape, findKvs_append]
          rw [Option.or_assoc]
          congr 1
          rw [insertKvs, findKvs]
          by_cases hk : k0 = k
          · simp [findKvs, hk]
          · simp [findKvs, hk]
        | none =>
          obtain ⟨m', w', hgo, hfind⟩ := ih (insertKvs m k0 v0) ws hrest
          dsimp only
          rw [hold]
          refine ⟨m', w', hgo, fun k => ?_⟩
          rw [hfind k, key_shape, findKvs_append]
          rw [Option.or_assoc]
          congr 1
          rw [insertKvs, findKvs]
          by_cases hk : k0 = k
          · simp [findKvs, hk]
          · simp [findKvs, hk]

/-- A plaintext in which `FOO` appears on two well-formed lines, followed
by a malformed line. -/
def dupBadPlaintext : Str := "FOO = \"a\"\nFOO = \"b\"\n???".data

/-- Claim C5 counterexample: the claim quantifies over every plaintext in
which the same key appears on two or more well-formed lines and asserts the
parse succeeds; `dupBadPlaintext` has `FOO` on two well-formed lines, yet
its parse fails (on the malformed third line). -/
theorem claim_C5_counterexample :
    parseLine "FOO = \"a\"".data = .ok (some ("FOO".data, "a".data)) ∧
    parseLine "FOO = \"b\"".data = .ok (some ("FOO".data, "b".data)) ∧
    linesOf dupBadPlaintext = ["FOO = \"a\"".data, "FOO = \"b\"".data, "???".data] ∧
    (kvsParse dupBadPlaintext).toOption = none :=
  ⟨rfl, rfl, rfl, rfl⟩

/-- Claim C5 (amended): for every plaintext all of whose lines are either
skippable (empty after trimming) or well-formed, the parse succeeds — a
duplicate key is never an error — and the resulting map binds every key to
the value of its last well-formed line.  For the two-line input
`FOO = "a"`, `FOO = "b"` the parse yields a map binding `FOO` to `"b"`
with exactly one duplicate warning carrying the overwritten value `"a"`. -/
theorem claim_C5_amended :
    (∀ pt : Str, (∀ l ∈ linesOf pt, (parseLine l).toOption ≠ none) →
      ∃ (m : Kvs) (w : List (Str × Str)), kvsParse pt = .ok (m, w) ∧
        ∀ k : Str, findKvs m k = findKvs (pairsOf pt).reverse k) ∧
    kvsParse "FOO = \"a\"\nFOO = \"b\"".data =
      .ok ([("FOO".data, "b".data), ("FOO".data, "a".data)], [("FOO".data, "a".data)]) ∧
    findKvs [("FOO".data, "b".data), ("FOO".data, "a".data)] "FOO".data = some "b".data := by
  refine ⟨?_, by rfl, by rfl⟩
  intro pt hok
  obtain ⟨m', w', hgo, hfind⟩ := kvsGo_spec (linesOf pt) [] [] hok
  refine ⟨m', w', hgo, fun k => ?_⟩
  rw [hfind k, pairsOf]
  simp [findKvs]

/-- Witness for C5 (amended) at the two-line duplicate input. -/
theorem claim_C5_witness :
    (∀ l ∈ linesOf "FOO = \"a\"\nFOO = \"b\"".data, (parseLine l).toOption ≠ none) ∧
    ∃ (m : Kvs) (w : List (Str × Str)),
      kvsParse "FOO = \"a\"\nFOO = \"b\"".data = .ok (m, w) ∧
      ∀ k : Str, findKvs m k =
        findKvs (pairsOf "FOO = \"a\"\nFOO = \"b\"".data).reverse k := by
  have h : ∀ l ∈ linesOf "FOO = \"a\"\nFOO = \"b\"".data, (parseLine l).toOption ≠ none := by
    decide
  exact ⟨h, claim_C5_amended.1 "FOO = \"a\"\nFOO = \"b\"".data h⟩


/-! ## Missing-key analysis (C3) -/

theorem getExpect_error {kvs : Kvs} {key : Str} {e : Err} (h : getExpect kvs key = .error e) :
    e = .missingKey key ∧ findKvs kvs key = none := by
  rw [getExpect] at h
  cases hf : findKvs kvs key with
  | some v => rw [hf] at h; simp at h
  | none =>
    rw [hf] at h
    simp only [Except.error.injEq] at h
    exact ⟨h.symm, rfl⟩

theorem decodeSeq_error {α : Type} (label : String) (f : Nat → Str → Except Err α) :
    ∀ (ts : List Str) (i : Nat) (e : Err), decodeSeq label f i ts = .error e →
      ∃ (j : Nat) (e' : Err), e = .context label j e' := by
  intro ts
  induction ts with
  | nil =>
    intro i e h
    rw [decodeSeq] at h
    simp at h
  | cons t ts ih =>
    intro i e h
    rw [decodeSeq] at h
    cases hp : f i t with
    | error e1 =>
      rw [hp] at h
      simp only [Except.error.injEq] at h
      exact ⟨i, e1, h.symm⟩
    | ok a =>
      rw [hp] at h
      dsimp only at h
      cases hr : decodeSeq label f (i + 1) ts with
      | error e2 =>
        rw [hr] at h
        simp only [Except.map, Except.error.injEq] at h
        obtain ⟨j, e', he⟩ := ih (i + 1) e2 hr
        exact ⟨j, e', by rw [← h, he]⟩
      | ok l =>
        rw [hr] at h
        simp [Except.map] at h

theorem decodeSeq_not_missingKey {α : Type} {label : String} {f : Nat → Str → Except Err α}
    {ts : List Str} {i : Nat} {k : Str}
    (h : decodeSeq label f i ts = .error (.missingKey k)) : False := by
  obtain ⟨j, e', he⟩ := decodeSeq_error label f ts i (.missingKey k) h
  simp at he

theorem spellRealmsGo_error (lc : Nat) (ex : Bool) :
    ∀ (ts : List Str) (i : Nat) (e : Err), spellRealmsGo lc ex i ts = .error e →
      ∃ (j : Nat) (e' : Err), e = .context "spell realm" j e' := by
  intro ts
  induction ts with
  | nil =>
    intro i e h
    rw [spellRealmsGo] at h
    simp at h
  | cons t ts ih =>
    intro i e h
    rw [spellRealmsGo] at h
    cases hp : SpellRealm.parse lc (ex && ts.isEmpty) i t with
    | error e1 =>
      rw [hp] at h
      simp only [Except.error.injEq] at h
      exact ⟨i, e1, h.symm⟩
    | ok r =>
      rw [hp] at h
      dsimp only at h
      cases hr : spellRealmsGo lc ex (i + 1) ts with
      | error e2 =>
        rw [hr] at h
        simp only [Except.map, Except.error.injEq] at h
        obtain ⟨j, e', he⟩ := ih (i + 1) e2 hr
        exact ⟨j, e', by rw [← h, he]⟩
      | ok l =>
        rw [hr] at h
        simp [Except.map] at h

theorem req_error {α : Type} {o : Option α} {e0 e : Err} (h : req o e0 = .error e) : e = e0 := by
  cases o with
  | some a => simp [req] at h
  | none =>
    rw [req] at h
    simp only [Except.error.injEq] at h
    exact h.symm

theorem spell_realms_missingKey {kvs : Kvs} {k : Str}
    (h : spell_realms_from_kvs kvs = .error (.missingKey k)) :
    (k = "SpellLvNum".data ∨ k = "ExclusiveUseOfMonsters".data) ∧ findKvs kvs k = none := by
  rw [spell_realms_from_kvs] at h
  simp only [Bind.bind, Except.bind] at h
  cases h1 : getExpect kvs "SpellLvNum".data with
  | error e =>
    rw [h1] at h
    dsimp only at h
    simp only [Except.error.injEq] at h
    obtain ⟨he, hf⟩ := getExpect_error h1
    rw [h] at he
    injection he with hk
    subst hk
    exact ⟨Or.inl rfl, hf⟩
  | ok lvS =>
    rw [h1] at h
    dsimp only at h
    cases h2 : reqU32 lvS with
    | error e =>
      rw [h2] at h
      dsimp only at h
      simp only [Except.error.injEq] at h
      have := req_error h2
      rw [h] at this
      simp at this
    | ok lc =>
      rw [h2] at h
      dsimp only at h
      cases h3 : getExpect kvs "ExclusiveUseOfMonsters".data with
      | error e =>
        rw [h3] at h
        dsimp only at h
        simp only [Except.error.injEq] at h
        obtain ⟨he, hf⟩ := getExpect_error h3
        rw [h] at he
        injection he with hk
        subst hk
        exact ⟨Or.inr rfl, hf⟩
      | ok exS =>
        rw [h3] at h
        dsimp only at h
        cases h4 : reqBool exS with
        | error e =>
          rw [h4] at h
          dsimp only at h
          simp only [Except.error.injEq] at h
          have := req_error h4
          rw [h] at this
          simp at this
        | ok ex =>
          rw [h4] at h
          dsimp only at h
          obtain ⟨j, e', he⟩ := spellRealmsGo_error lc ex (iterSeq kvs "SpellKind".data) 0 _ h
          simp at he


theorem loadFromKvs_missingKey {kvs : Kvs} {k : Str}
    (h : loadFromKvs kvs = .error (.missingKey k)) :
    (k = "Version".data ∨ k = "ReadKeyword".data ∨ k = "GameTitle".data ∨
      k = "SpellLvNum".data ∨ k = "ExclusiveUseOfMonsters".data) ∧ findKvs kvs k = none := by
  rw [loadFromKvs] at h
  simp only [Bind.bind, Except.bind] at h
  cases h1 : getExpect kvs "Version".data with
  | error e =>
    rw [h1] at h
    dsimp only at h
    simp only [Except.error.injEq] at h
    obtain ⟨he, hf⟩ := getExpect_error h1
    rw [h] at he
    injection he with hk
    subst hk
    exact ⟨Or.inl rfl, hf⟩
  | ok v1 =>
  rw [h1] at h
  dsimp only at h
  cases h2 : getExpect kvs "ReadKeyword".data with
  | error e =>
    rw [h2] at h
    dsimp only at h
    simp only [Except.error.injEq] at h
    obtain ⟨he, hf⟩ := getExpect_error h2
    rw [h] at he
    injection he with hk
    subst hk
    exact ⟨Or.inr (Or.inl rfl), hf⟩
  | ok v2 =>
  rw [h2] at h
  dsimp only at h
  cases h3 : getExpect kvs "GameTitle".data with
  | error e =>
    rw [h3] at h
    dsimp only at h
    simp only [Except.error.injEq] at h
    obtain ⟨he, hf⟩ := getExpect_error h3
    rw [h] at he
    injection he with hk
    subst hk
    exact ⟨Or.inr (Or.inr (Or.inl rfl)), hf⟩
  | ok v3 =>
  rw [h3] at h
  dsimp only at h
  cases h4 : stats_from_kvs kvs with
  | error e =>
    rw [h4] at h
    dsimp only at h
    simp only [Except.error.injEq] at h
    rw [h] at h4
    exact (decodeSeq_not_missingKey (by rw [stats_from_kvs] at h4; exact h4)).elim
  | ok stats =>
  rw [h4] at h
  dsimp only at h
  cases h5 : races_from_kvs kvs with
  | error e =>
    rw [h5] at h
    dsimp only at h
    simp only [Except.error.injEq] at h
    rw [h] at h5
    exact (decodeSeq_not_missingKey (by rw [races_from_kvs] at h5; exact h5)).elim
  | ok races =>
  rw [h5] at h
  dsimp only at h
  cases h6 : classes_from_kvs kvs with
  | error e =>
    rw [h6] at h
    dsimp only at h
    simp only [Except.error.injEq] at h
    rw [h] at h6
    exact (decodeSeq_not_missingKey (by rw [classes_from_kvs] at h6; exact h6)).elim
  | ok classes =>
  rw [h6] at h
  dsimp only at h
  cases h7 : spell_realms_from_kvs kvs with
  | error e =>
    rw [h7] at h
    dsimp only at h
    simp only [Except.error.injEq] at h
    rw [h] at h7
    obtain ⟨hor, hf⟩ := spell_realms_missingKey h7
    refine ⟨?_, hf⟩
    rcases hor with hk | hk
    · exact Or.inr (Or.inr (Or.inr (Or.inl hk)))
    · exact Or.inr (Or.inr (Or.inr (Or.inr hk)))
  | ok realms =>
  rw [h7] at h
  dsimp only at h
  cases h8 : items_from_kvs kvs with
  | error e =>
    rw [h8] at h
    dsimp only at h
    simp only [Except.error.injEq] at h
    rw [h] at h8
    exact (decodeSeq_not_missingKey (by rw [items_from_kvs] at h8; exact h8)).elim
  | ok items =>
  rw [h8] at h
  dsimp only at h
  cases h9 : monsters_from_kvs kvs with
  | error e =>
    rw [h9] at h
    dsimp only at h
    simp only [Except.error.injEq] at h
    rw [h] at h9
    exact (decodeSeq_not_missingKey (by rw [monsters_from_kvs] at h9; exact h9)).elim
  | ok monsters =>
  rw [h9] at h
  dsimp only at h
  simp at h

theorem parseLine_error_shape {l : Str} {e : Err} (h : parseLine l = .error e) :
    e = .invalidLine l := by
  rw [parseLine] at h
  try dsimp only at h
  repeat' split at h
  all_goals simp_all


theorem kvsGo_error_shape :
    ∀ (ls : List Str) (m : Kvs) (ws : List (Str × Str)) (e : Err),
      kvsGo ls m ws = .error e → ∃ l : Str, e = .invalidLine l := by
  intro ls
  induction ls with
  | nil =>
    intro m ws e h
    rw [kvsGo] at h
    simp at h
  | cons l ls ih =>
    intro m ws e h
    rw [kvsGo] at h
    cases pl : parseLine l with
    | error e1 =>
      rw [pl] at h
      simp only [Except.error.injEq] at h
      exact ⟨l, by rw [← h]; exact parseLine_error_shape pl⟩
    | ok o =>
      rw [pl] at h
      cases o with
      | none =>
        dsimp only at h
        exact ih m ws e h
      | some p =>
        obtain ⟨k0, v0⟩ := p
        dsimp only at h
        cases hold : findKvs m k0 with
        | some old =>
          rw [hold] at h
          exact ih _ _ e h
        | none =>
          rw [hold] at h
          exact ih _ _ e h

theorem kvsParse_error_shape {pt : Str} {e : Err} (h : kvsParse pt = .error e) :
    ∃ l : Str, e = .invalidLine l :=
  kvsGo_error_shape (linesOf pt) [] [] e h

/-- The minimal plaintext of claim C3: the three mandatory scalar keys plus
one well-formed `Abi0`, `Race0` and `Class0` each, no `Item0`/`Monster0`. -/
def claimC3Plaintext : Str :=
  ("Version = \"1\"\nReadKeyword = \"K\"\nGameTitle = \"T\"\n" ++
   "Abi0 = \"Name<>Nm<>0<>0<>false<>x<>y<>false\"\n" ++
   "Race0 = \"Human<>Hum<>1,2<>50<>0<>0<>0<>a<>b<><>cond<>desc<>z<>0\"\n" ++
   "Class0 = \"Fighter<>Fig<>01<>012<>1<>ac<>hit<>cnt<>1,2,3<>0<>0<>false<>0<><>u<>hp<>xp<>desc<>0<>v<>cond\"").data

/-- `claimC3Plaintext` extended with the two further scalar keys the spell
realm decoder reads. -/
def claimC3PlaintextFull : Str :=
  claimC3Plaintext ++ "\nSpellLvNum = \"1\"\nExclusiveUseOfMonsters = \"false\"".data

/-- Claim C3 counterexample: the claim's minimal plaintext (three mandatory
scalar keys plus well-formed `Abi0`/`Race0`/`Class0`, no `Item0`/`Monster0`)
does not load — it fails with a missing-key error on `SpellLvNum`, a key
that is not one of the three the claim allows. -/
theorem claim_C3_counterexample :
    loadFromPlaintext claimC3Plaintext = .error (.missingKey "SpellLvNum".data) ∧
    "SpellLvNum".data ≠ "Version".data ∧ "SpellLvNum".data ≠ "ReadKeyword".data ∧
    "SpellLvNum".data ≠ "GameTitle".data :=
  ⟨rfl, by decide, by decide, by decide⟩

/-- Claim C3 (amended): with the two further mandatory scalar keys
`SpellLvNum` and `ExclusiveUseOfMonsters` added, the minimal plaintext
loads to a scenario with one stat, one race, one class, no items and no
monsters; and `load` fails with a missing-key error only when one of the
five mandatory scalar keys is absent from the parsed store. -/
theorem claim_C3_amended :
    (loadFromPlaintext claimC3PlaintextFull).toOption.map
        (fun s => (s.stats.length, s.races.length, s.classes.length,
          s.items.length, s.monsters.length)) = some (1, 1, 1, 0, 0) ∧
    (∀ (kvs : Kvs) (k : Str), loadFromKvs kvs = .error (.missingKey k) →
      (k = "Version".data ∨ k = "ReadKeyword".data ∨ k = "GameTitle".data ∨
        k = "SpellLvNum".data ∨ k = "ExclusiveUseOfMonsters".data) ∧ findKvs kvs k = none) ∧
    (∀ (pt : Str) (k : Str), loadFromPlaintext pt = .error (.missingKey k) →
      ∃ (m : Kvs) (w : List (Str × Str)), kvsParse pt = .ok (m, w) ∧
        (k = "Version".data ∨ k = "ReadKeyword".data ∨ k = "GameTitle".data ∨
          k = "SpellLvNum".data ∨ k = "ExclusiveUseOfMonsters".data) ∧
        findKvs m k = none) := by
  refine ⟨by rfl, fun kvs k h => loadFromKvs_missingKey h, ?_⟩
  intro pt k h
  rw [loadFromPlaintext] at h
  simp only [Bind.bind, Except.bind] at h
  cases hp : kvsParse pt with
  | error e =>
    rw [hp] at h
    dsimp only at h
    simp only [Except.error.injEq] at h
    obtain ⟨line, he⟩ := kvsParse_error_shape hp
    rw [h] at he
    simp at he
  | ok mw =>
    rw [hp] at h
    dsimp only at h
    obtain ⟨m, w⟩ := mw
    obtain ⟨hor, hf⟩ := loadFromKvs_missingKey h
    exact ⟨m, w, rfl, hor, hf⟩

/-- Witness for C3 (amended): the empty store fails with the missing key
`Version`, which the theorem places among the five mandatory keys. -/
theorem claim_C3_witness :
    loadFromKvs [] = .error (.missingKey "Version".data) ∧
    ("Version".data = "Version".data ∨ "Version".data = "ReadKeyword".data ∨
      "Version".data = "GameTitle".data ∨ "Version".data = "SpellLvNum".data ∨
      "Version".data = "ExclusiveUseOfMonsters".data) ∧
    findKvs [] "Version".data = none :=
  ⟨rfl, claim_C3_amended.2.1 [] "Version".data rfl⟩


/-! ## Cipher engine facts (C8) -/

theorem pkcs7Pad_length_mod (d : List Nat) : (pkcs7Pad d).length % 8 = 0 := by
  rw [pkcs7Pad]
  simp only [List.length_append, List.length_replicate]
  omega

theorem getLast?_replicate_self (p : Nat) (h : p ≠ 0) :
    (List.replicate p p).getLast? = some p := by
  cases p with
  | zero => omega
  | succ n => rw [List.replicate_succ', List.getLast?_concat]

theorem pkcs7Unpad_pad (d : List Nat) : pkcs7Unpad (pkcs7Pad d) = .ok d := by
  have hp1 : 1 ≤ 8 - d.length % 8 := by omega
  have hp8 : 8 - d.length % 8 ≤ 8 := by omega
  set p := 8 - d.length % 8 with hp
  rw [pkcs7Pad, pkcs7Unpad, ← hp]
  rw [List.getLast?_append, getLast?_replicate_self p (by omega)]
  rw [show (some p).or d.getLast? = some p from rfl]
  dsimp only
  have hlen : (d ++ List.replicate p p).length = d.length + p := by simp
  rw [if_neg (by rw [hlen]; omega)]
  have hdrop : (d ++ List.replicate p p).drop ((d ++ List.replicate p p).length - p) =
      List.replicate p p := by
    rw [hlen, Nat.add_sub_cancel, List.drop_left]
  rw [if_pos hdrop, hlen, Nat.add_sub_cancel, List.take_left]

theorem pkcs7Unpad_error_shape {x : List Nat} {e : Err} (h : pkcs7Unpad x = .error e) :
    e = .badPadding := by
  rw [pkcs7Unpad] at h
  repeat' split at h
  all_goals simp_all

theorem toBlocksF_fuel :
    ∀ (f : Nat) (l : List Nat), l.length ≤ f → toBlocksF f l = toBlocksF l.length l := by
  intro f
  induction f using Nat.strong_induction_on with
  | _ f ih =>
    intro l hl
    cases f with
    | zero =>
      have : l = [] := List.length_eq_zero.mp (by omega)
      subst this
      rfl
    | succ f' =>
      cases l with
      | nil => rfl
      | cons c cs =>
        have h1 : toBlocksF (f' + 1) (c :: cs) =
            (c :: cs).take 8 :: toBlocksF f' ((c :: cs).drop 8) := rfl
        have h2 : toBlocksF (c :: cs).length (c :: cs) =
            (c :: cs).take 8 :: toBlocksF cs.length ((c :: cs).drop 8) := rfl
        rw [h1, h2]
        have hd : ((c :: cs).drop 8).length ≤ f' := by
          simp only [List.length_drop, List.length_cons] at *
          omega
        have hd2 : ((c :: cs).drop 8).length ≤ cs.length := by
          simp only [List.length_drop, List.length_cons]
          omega
        rw [ih f' (by omega) _ hd, ih cs.length (by simp at hl; omega) _ hd2]

theorem toBlocksF_flatten :
    ∀ (f : Nat) (l : List Nat), l.length ≤ f → (toBlocksF f l).flatten = l := by
  intro f
  induction f with
  | zero =>
    intro l hl
    have : l = [] := List.length_eq_zero.mp (by omega)
    subst this
    rfl
  | succ f ih =>
    intro l hl
    cases l with
    | nil => rfl
    | cons c cs =>
      have h1 : toBlocksF (f + 1) (c :: cs) =
          (c :: cs).take 8 :: toBlocksF f ((c :: cs).drop 8) := rfl
      have hlen : ((c :: cs).drop 8).length ≤ f := by
        simp only [List.length_drop, List.length_cons]
        simp only [List.length_cons] at hl
        omega
      rw [h1, List.flatten_cons, ih _ hlen, List.take_append_drop]

theorem toBlocks_flatten (l : List Nat) : (toBlocks l).flatten = l :=
  toBlocksF_flatten l.length l le_rfl

theorem toBlocksF_length_mem :
    ∀ (f : Nat) (l : List Nat), l.length ≤ f → l.length % 8 = 0 →
      ∀ b ∈ toBlocksF f l, b.length = 8 := by
  intro f
  induction f with
  | zero =>
    intro l hl _ b hb
    have : l = [] := List.length_eq_zero.mp (by omega)
    subst this
    simp [toBlocksF] at hb
  | succ f ih =>
    intro l hl hm b hb
    cases l with
    | nil => simp [toBlocksF] at hb
    | cons c cs =>
      have h1 : toBlocksF (f + 1) (c :: cs) =
          (c :: cs).take 8 :: toBlocksF f ((c :: cs).drop 8) := rfl
      rw [h1] at hb
      rcases List.mem_cons.mp hb with hb | hb
      · subst hb
        rw [List.length_take]
        simp only [List.length_cons] at hm ⊢
        omega
      · have hlen : ((c :: cs).drop 8).length ≤ f := by
          simp only [List.length_drop, List.length_cons]
          simp only [List.length_cons] at hl
          omega
        exact ih _ hlen
          (by simp only [List.length_drop, List.length_cons] at hm ⊢; omega) b hb

theorem toBlocks_length_mem {l : List Nat} (hm : l.length % 8 = 0) :
    ∀ b ∈ toBlocks l, b.length = 8 :=
  toBlocksF_length_mem l.length l le_rfl hm

theorem toBlocksF_flatten_blocks :
    ∀ (bs : List (List Nat)) (f : Nat), (∀ b ∈ bs, b.length = 8) → bs.flatten.length ≤ f →
      toBlocksF f bs.flatten = bs := by
  intro bs
  induction bs with
  | nil =>
    intro f _ _
    cases f <;> rfl
  | cons b bs ih =>
    intro f hb hf
    have hb8 : b.length = 8 := hb b (by simp)
    cases b with
    | nil => simp at hb8
    | cons x xs =>
      cases f with
      | zero =>
        exfalso
        simp only [List.flatten_cons, List.length_append, List.length_cons, hb8] at hf
        simp only [List.length_cons] at hb8
        omega
      | succ f =>
        rw [List.flatten_cons, List.cons_append]
        have h1 : toBlocksF (f + 1) (x :: (xs ++ bs.flatten)) =
            (x :: (xs ++ bs.flatten)).take 8 :: toBlocksF f ((x :: (xs ++ bs.flatten)).drop 8) := rfl
        rw [h1]
        have htake : (x :: (xs ++ bs.flatten)).take 8 = x :: xs := by
          rw [show x :: (xs ++ bs.flatten) = (x :: xs) ++ bs.flatten from rfl, ← hb8,
            List.take_left]
        have hdrop : (x :: (xs ++ bs.flatten)).drop 8 = bs.flatten := by
          rw [show x :: (xs ++ bs.flatten) = (x :: xs) ++ bs.flatten from rfl, ← hb8,
            List.drop_left]
        rw [htake, hdrop,
          ih f (fun y hy => hb y (by simp [hy])) ?_]
        have := congrArg List.length (rfl : bs.flatten = bs.flatten)
        have hf' : ((x :: xs) ++ bs.flatten).length ≤ f + 1 := by
          rw [← List.cons_append] at *
          simpa [List.flatten_cons] using hf
        simp only [List.length_append, hb8] at hf'
        omega

theorem toBlocks_flatten_blocks {bs : List (List Nat)} (hb : ∀ b ∈ bs, b.length = 8) :
    toBlocks bs.flatten = bs :=
  toBlocksF_flatten_blocks bs bs.flatten.length hb le_rfl

theorem flatten_length_blocks :
    ∀ (bs : List (List Nat)), (∀ b ∈ bs, b.length = 8) → bs.flatten.length = 8 * bs.length := by
  intro bs
  induction bs with
  | nil => simp
  | cons b bs ih =>
    intro hb
    rw [List.flatten_cons, List.length_append, hb b (by simp),
      ih (fun y hy => hb y (by simp [hy]))]
    simp only [List.length_cons]
    ring


theorem utf8Encode_cons (c : Char) (s : Str) :
    utf8Encode (c :: s) = utf8EncodeChar c ++ utf8Encode s := rfl

theorem utf8DecodeF_encode :
    ∀ (s : Str) (f : Nat), s.length ≤ f → utf8DecodeF f (utf8Encode s) = some s := by
  intro s
  induction s with
  | nil =>
    intro f _
    cases f <;> rfl
  | cons c s ih =>
    intro f hf
    cases f with
    | zero => simp at hf
    | succ f =>
      have hih : utf8DecodeF f (utf8Encode s) = some s := by
        apply ih
        simp only [List.length_cons] at hf
        omega
      have hvb : c.toNat < 0xD800 ∨ (0xDFFF < c.toNat ∧ c.toNat < 0x110000) := c.valid
      rw [utf8Encode_cons, utf8EncodeChar]
      set v := c.toNat with hv
      by_cases h1 : v < 0x80
      · rw [if_pos h1, List.cons_append, List.nil_append, utf8DecodeF, if_pos h1, hih]
        simp [hv, Char.ofNat_toNat]
      · rw [if_neg h1]
        by_cases h2 : v < 0x800
        · rw [if_pos h2, List.cons_append, List.cons_append, List.nil_append, utf8DecodeF]
          rw [if_neg (by omega), if_neg (by omega), if_pos (show 0xC0 + v / 64 < 0xE0 by omega)]
          rw [utf8Cont1]
          rw [if_pos (show 0x80 ≤ 0x80 + v % 64 ∧ 0x80 + v % 64 < 0xC0 by omega)]
          rw [hih]
          rw [show (0xC0 + v / 64 - 0xC0) * 64 + (0x80 + v % 64 - 0x80) = v from by omega]
          simp [hv, Char.ofNat_toNat]
        · rw [if_neg h2]
          by_cases h3 : v < 0x10000
          · rw [if_pos h3, List.cons_append, List.cons_append, List.cons_append,
              List.nil_append, utf8DecodeF]
            rw [if_neg (by omega), if_neg (by omega), if_neg (show ¬0xE0 + v / 4096 < 0xE0 by omega),
              if_pos (show 0xE0 + v / 4096 < 0xF0 by omega)]
            rw [utf8Cont2]
            rw [if_pos (show (0x80 ≤ 0x80 + v / 64 % 64 ∧ 0x80 + v / 64 % 64 < 0xC0) ∧
              (0x80 ≤ 0x80 + v % 64 ∧ 0x80 + v % 64 < 0xC0) ∧
              (0xE0 + v / 4096 = 0xE0 → 0xA0 ≤ 0x80 + v / 64 % 64) ∧
              (0xE0 + v / 4096 = 0xED → 0x80 + v / 64 % 64 < 0xA0) from
              ⟨by omega, by omega, fun hE => by omega, fun hE => by omega⟩)]
            rw [hih]
            rw [show (0xE0 + v / 4096 - 0xE0) * 4096 + (0x80 + v / 64 % 64 - 0x80) * 64 +
              (0x80 + v % 64 - 0x80) = v from by omega]
            simp [hv, Char.ofNat_toNat]
          · rw [if_neg h3, List.cons_append, List.cons_append, List.cons_append,
              List.cons_append, List.nil_append, utf8DecodeF]
            have hlt : v < 0x110000 := by omega
            rw [if_neg (by omega), if_neg (by omega),
              if_neg (show ¬0xF0 + v / 262144 < 0xE0 by omega),
              if_neg (show ¬0xF0 + v / 262144 < 0xF0 by omega),
              if_pos (show 0xF0 + v / 262144 < 0xF5 by omega)]
            rw [utf8Cont3]
            rw [if_pos (show (0x80 ≤ 0x80 + v / 4096 % 64 ∧ 0x80 + v / 4096 % 64 < 0xC0) ∧
              (0x80 ≤ 0x80 + v / 64 % 64 ∧ 0x80 + v / 64 % 64 < 0xC0) ∧
              (0x80 ≤ 0x80 + v % 64 ∧ 0x80 + v % 64 < 0xC0) ∧
              (0xF0 + v / 262144 = 0xF0 → 0x90 ≤ 0x80 + v / 4096 % 64) ∧
              (0xF0 + v / 262144 = 0xF4 → 0x80 + v / 4096 % 64 < 0x90) from
              ⟨by omega, by omega, by omega, fun hE => by omega, fun hE => by omega⟩)]
            rw [hih]
            rw [show (0xF0 + v / 262144 - 0xF0) * 262144 + (0x80 + v / 4096 % 64 - 0x80) * 4096 +
              (0x80 + v / 64 % 64 - 0x80) * 64 + (0x80 + v % 64 - 0x80) = v from by omega]
            simp [hv, Char.ofNat_toNat]

theorem utf8Encode_length_ge (s : Str) : s.length ≤ (utf8Encode s).length := by
  induction s with
  | nil => simp [utf8Encode]
  | cons c s ih =>
    rw [utf8Encode_cons, List.length_append, List.length_cons]
    have : 1 ≤ (utf8EncodeChar c).length := by
      rw [utf8EncodeChar]
      repeat' split
      all_goals simp
    omega

theorem utf8Decode_encode (s : Str) : utf8Decode (utf8Encode s) = some s :=
  utf8DecodeF_encode s (utf8Encode s).length (utf8Encode_length_ge s)


theorem decryptWith_encryptWith (enc dec : List Nat → List Nat)
    (hl : ∀ b : List Nat, b.length = 8 → (enc b).length = 8)
    (hi : ∀ b : List Nat, b.length = 8 → dec (enc b) = b) (s : Str) :
    decryptWith dec (encryptWith enc s) = .ok s := by
  set padded := pkcs7Pad (utf8Encode s) with hpad
  have hpmod : padded.length % 8 = 0 := pkcs7Pad_length_mod _
  have hblocks : ∀ b ∈ toBlocks padded, b.length = 8 := toBlocks_length_mem hpmod
  have hencb : ∀ b ∈ (toBlocks padded).map enc, b.length = 8 := by
    intro b hb
    rw [List.mem_map] at hb
    obtain ⟨a, ha, rfl⟩ := hb
    exact hl a (hblocks a ha)
  have hctlen : (encryptWith enc s).length % 8 = 0 := by
    rw [encryptWith, ← hpad, flatten_length_blocks _ hencb]
    omega
  have hkey : ((toBlocks (encryptWith enc s)).map dec).flatten = padded := by
    rw [encryptWith, ← hpad, toBlocks_flatten_blocks hencb, List.map_map,
      List.map_congr_left
        (fun b hb => (show (dec ∘ enc) b = id b from hi b (hblocks b hb))),
      List.map_id, toBlocks_flatten]
  rw [decryptWith, if_neg (by omega)]
  simp only [Bind.bind, Except.bind]
  rw [hkey, hpad, pkcs7Unpad_pad]
  dsimp only
  rw [utf8Decode_encode]

/-- Claim C8: with the externally supplied 64-bit block cipher abstracted
as any length-preserving pair of mutually inverse functions on 8-byte
blocks (the spec fixes it to DES under the first 8 bytes of the MD5 digest
of the fixed passphrase; both live in external crates), encrypting any
plaintext in ECB mode with byte padding and then applying `decrypt`
recovers exactly that plaintext; and `decrypt` fails with `BadLength` when
the ciphertext length is not a multiple of 8, with `BadPadding` when the
final block's padding is malformed, and with `NotUtf8` when the unpadded
bytes are not valid UTF-8.  The key derivation takes exactly the first
8 bytes of the 128-bit digest. -/
theorem claim_C8 :
    ∀ (enc dec : List Nat → List Nat),
      (∀ b : List Nat, b.length = 8 → (enc b).length = 8) →
      (∀ b : List Nat, b.length = 8 → dec (enc b) = b) →
      (∀ s : Str, decryptWith dec (encryptWith enc s) = .ok s) ∧
      (∀ ct : List Nat, ct.length % 8 ≠ 0 → decryptWith dec ct = .error .badLength) ∧
      (∀ (ct : List Nat) (e : Err), ct.length % 8 = 0 →
        pkcs7Unpad ((toBlocks ct).map dec).flatten = .error e →
        decryptWith dec ct = .error .badPadding) ∧
      (∀ (ct u : List Nat), ct.length % 8 = 0 →
        pkcs7Unpad ((toBlocks ct).map dec).flatten = .ok u → utf8Decode u = none →
        decryptWith dec ct = .error .notUtf8) ∧
      (∀ digest : List Nat, 8 ≤ digest.length → (make_key digest).length = 8 ∧
        make_key digest = digest.take 8) := by
  intro enc dec hl hi
  refine ⟨decryptWith_encryptWith enc dec hl hi, ?_, ?_, ?_, ?_⟩
  · intro ct hlen
    rw [decryptWith, if_pos hlen]
  · intro ct e hlen hup
    rw [decryptWith, if_neg (by omega)]
    simp only [Bind.bind, Except.bind]
    rw [hup]
    dsimp only
    rw [pkcs7Unpad_error_shape hup]
  · intro ct u hlen hup hdec
    rw [decryptWith, if_neg (by omega)]
    simp only [Bind.bind, Except.bind]
    rw [hup]
    dsimp only
    rw [hdec]
  · intro digest hlen
    constructor
    · rw [make_key, List.length_take]
      omega
    · rfl

/-- Witness for C8: the identity block cipher at a short plaintext,
a bad-length ciphertext, and an 8-byte digest. -/
theorem claim_C8_witness :
    (∀ b : List Nat, b.length = 8 → ((fun x : List Nat => x) b).length = 8) ∧
    (∀ b : List Nat, b.length = 8 → (fun x : List Nat => x) ((fun x : List Nat => x) b) = b) ∧
    decryptWith (fun x : List Nat => x)
        (encryptWith (fun x : List Nat => x) "K = \"v\"".data) = .ok "K = \"v\"".data ∧
    decryptWith (fun x : List Nat => x) [0] = .error .badLength ∧
    (8 ≤ ([1, 2, 3, 4, 5, 6, 7, 8, 9] : List Nat).length ∧
      (make_key [1, 2, 3, 4, 5, 6, 7, 8, 9]).length = 8 ∧
      make_key [1, 2, 3, 4, 5, 6, 7, 8, 9] = ([1, 2, 3, 4, 5, 6, 7, 8, 9] : List Nat).take 8) :=
  ⟨fun _ h => h, fun _ _ => rfl,
    (claim_C8 _ _ (fun _ h => h) (fun _ _ => rfl)).1 _,
    (claim_C8 _ _ (fun _ h => h) (fun _ _ => rfl)).2.1 [0] (by decide),
    by decide,
    ((claim_C8 (fun x => x) (fun x => x) (fun _ h => h) (fun _ _ => rfl)).2.2.2.2
      [1, 2, 3, 4, 5, 6, 7, 8, 9] (by decide)).1,
    ((claim_C8 (fun x => x) (fun x => x) (fun _ h => h) (fun _ _ => rfl)).2.2.2.2
      [1, 2, 3, 4, 5, 6, 7, 8, 9] (by decide)).2⟩

end JavardrySpoiler